import Mathlib

/-!
# Verification of the nativeconfig option/value resolution core

Shallow embedding of the `nativeconfig` Python package (options, the
memory-backed config, the ordered option registry and the chain resolver),
translated from:

* `nativeconfig/options/base_option.py`
* `nativeconfig/options/boolean_option.py`, `int_option.py`, `string_option.py`
* `nativeconfig/options/array_option.py`, `dict_option.py`
* `nativeconfig/configs/base_config.py` (cache/lock-free accessors, registry
  metaclass, `resolve_value`)
* `nativeconfig/configs/memory_config.py`
* `nativeconfig/configs/chain_config.py`

Conventions of the embedding:

* Python objects relevant to the library are modelled by `PyValue`
  (None, bool, int, str, list, tuple, dict with string keys).  Python's
  `bool` subclasses `int`; `isinstance` tests reflect that.
* Python `==` is modelled by `pyEq` (numeric equality across bool/int,
  structural for strings, element-wise for lists/tuples — a list never
  equals a tuple — and order-insensitive for dicts).
* JSON text is modelled at tree level by `Jx`: `json.dumps` becomes the
  total tree builder `dumps`, `json.loads` becomes reading a `JTxt`
  (`Option Jx`, where `Option.none` stands for unparsable text, on which
  `json.loads` raises `ValueError`).  The manual string assembly performed
  by `ArrayOption.serialize_json`/`DictOption.serialize_json` is modelled
  as the corresponding tree assembly.
* Exceptions are explicit: `PyErr.validationError` and
  `PyErr.deserializationError` are the two classes the library itself
  raises and catches; `PyErr.uncaught` stands for any other exception
  (`ValueError`, `TypeError`, `AttributeError`) that no handler in the
  translated code catches.
* The per-instance `threading.Lock` is elided: the model is sequential, so
  the lock-guarded entry points coincide with their lock-free versions.
-/

namespace NativeConfig

/-- Python values that can flow through the option system. -/
inductive PyValue where
  | none
  | bool (b : Bool)
  | int (n : Int)
  | str (s : String)
  | list (xs : List PyValue)
  | tuple (xs : List PyValue)
  | dict (kvs : List (String × PyValue))
deriving Repr

/-- Test for `v is None`. -/
def PyValue.isNone : PyValue → Bool
  | .none => true
  | _ => false

/-- Numeric view shared by Python `bool` and `int` (`True == 1`). -/
def pyNum : PyValue → Option Int
  | .bool b => some (if b then 1 else 0)
  | .int n => some n
  | _ => Option.none

mutual

/-- Python `==` on the embedded values. -/
def pyEq : PyValue → PyValue → Bool
  | .none, .none => true
  | .none, _ => false
  | _, .none => false
  | .str a, .str b => a == b
  | .list a, .list b => pyEqList a b
  | .tuple a, .tuple b => pyEqList a b
  | .dict a, .dict b => a.length == b.length && pyDictSub a b
  | a, b =>
    match pyNum a, pyNum b with
    | some x, some y => x == y
    | _, _ => false
termination_by a b => sizeOf a + sizeOf b
decreasing_by all_goals (simp_wf; try omega)

/-- Element-wise Python `==` of two sequences. -/
def pyEqList : List PyValue → List PyValue → Bool
  | [], [] => true
  | x :: xs, y :: ys => pyEq x y && pyEqList xs ys
  | _, _ => false
termination_by a b => sizeOf a + sizeOf b
decreasing_by all_goals (simp_wf; try omega)

/-- Every binding of the first dict is `==`-matched in the second. -/
def pyDictSub : List (String × PyValue) → List (String × PyValue) → Bool
  | [], _ => true
  | (k, v) :: rest, b => pyLookupEq k v b && pyDictSub rest b
termination_by a b => sizeOf a + sizeOf b
decreasing_by all_goals (simp_wf; try omega)

/-- The second dict maps `k` to a value Python-equal to `v`. -/
def pyLookupEq : String → PyValue → List (String × PyValue) → Bool
  | _, _, [] => false
  | k, v, (k2, w) :: rest => if k = k2 then pyEq v w else pyLookupEq k v rest
termination_by _ v b => sizeOf v + sizeOf b
decreasing_by all_goals (simp_wf; try omega)

end

/-- Model of `isinstance(v, bool)`. -/
def isinstanceBool : PyValue → Bool
  | .bool _ => true
  | _ => false

/-- Model of `isinstance(v, int)`: Python `bool` is a subclass of `int`. -/
def isinstanceInt : PyValue → Bool
  | .bool _ => true
  | .int _ => true
  | _ => false

/-- Model of `isinstance(v, str)`. -/
def isinstanceStr : PyValue → Bool
  | .str _ => true
  | _ => false

/-- Model of `isinstance(v, (list, tuple))`. -/
def isinstanceListOrTuple : PyValue → Bool
  | .list _ => true
  | .tuple _ => true
  | _ => false

/-- Model of `isinstance(v, dict)`. -/
def isinstanceDict : PyValue → Bool
  | .dict _ => true
  | _ => false

/-- Python truthiness (`if python_value:`). -/
def pyTruthy : PyValue → Bool
  | .none => false
  | .bool b => b
  | .int n => n != 0
  | .str s => s != ""
  | .list xs => !xs.isEmpty
  | .tuple xs => !xs.isEmpty
  | .dict kvs => !kvs.isEmpty

/-- The ASCII digit for `d < 10`. -/
def digitChar48 (d : Nat) : Char := Char.ofNat (48 + d)

/-- Decimal digits of a natural number, most significant first. -/
def natDecimalChars (n : Nat) : List Char :=
  if _h : n < 10 then [digitChar48 n]
  else natDecimalChars (n / 10) ++ [digitChar48 (n % 10)]
decreasing_by exact Nat.div_lt_self (by omega) (by omega)

/-- Rendering `str(n)` for a Python int: minus sign followed by decimal digits. -/
def pyIntStr (n : Int) : String :=
  if n < 0 then String.mk ('-' :: natDecimalChars (-n).toNat)
  else String.mk (natDecimalChars n.toNat)

mutual

/-- Rendering `str(v)`.  For the scalar payloads this is exact; for containers the
nested items go through `pyRepr` just as CPython's `str` does. -/
def pyStr : PyValue → String
  | .none => "None"
  | .bool b => if b then "True" else "False"
  | .int n => pyIntStr n
  | .str s => s
  | .list xs => "[" ++ ", ".intercalate (pyReprList xs) ++ "]"
  | .tuple [x] => "(" ++ pyRepr x ++ ",)"
  | .tuple xs => "(" ++ ", ".intercalate (pyReprList xs) ++ ")"
  | .dict kvs => "\x7b" ++ ", ".intercalate (pyReprDict kvs) ++ "\x7d"
termination_by v => (sizeOf v, 0)

/-- Rendering `repr(v)`; string escaping inside quotes is elided (no theorem below
depends on the rendering of a string that itself contains quotes). -/
def pyRepr : PyValue → String
  | .str s => "'" ++ s ++ "'"
  | v => pyStr v
termination_by v => (sizeOf v, 1)

/-- Rendering `repr` of each member of a list. -/
def pyReprList : List PyValue → List String
  | [] => []
  | x :: xs => pyRepr x :: pyReprList xs
termination_by xs => (sizeOf xs, 0)

/-- Rendering `repr` of each binding of a dict. -/
def pyReprDict : List (String × PyValue) → List String
  | [] => []
  | (k, v) :: kvs => ("'" ++ k ++ "': " ++ pyRepr v) :: pyReprDict kvs
termination_by kvs => (sizeOf kvs, 0)

end

/-- One character of a Python int literal is an ASCII digit. -/
def isAsciiDigit (c : Char) : Bool := 48 ≤ c.toNat && c.toNat ≤ 57

/-- Digit chars (with CPython's single-underscore-between-digits rule)
to a natural number; `Option.none` when the shape is illegal. -/
def digitsToNat (cs : List Char) : Option Nat := go cs true 0
where
  /-- Flag `expectDigit` is true when the previous char was an underscore or we
  are at the start, so a digit is mandatory next (in particular the empty
  string is rejected). -/
  go : List Char → Bool → Nat → Option Nat
  | [], expectDigit, acc => if expectDigit then Option.none else some acc
  | c :: cs, expectDigit, acc =>
    if isAsciiDigit c then
      go cs false (acc * 10 + (c.toNat - 48))
    else if c = '_' then
      if expectDigit then Option.none else go cs true acc
    else
      Option.none

/-- The sign-then-digits core of `int(...)` parsing. -/
def parseSigned : List Char → Option Int
  | [] => Option.none
  | c :: rest =>
    if c = '-' then (digitsToNat rest).map (fun m => -(Int.ofNat m))
    else if c = '+' then (digitsToNat rest).map Int.ofNat
    else (digitsToNat (c :: rest)).map Int.ofNat

/-- Parsing `int(s)` for a Python `str` argument: strips surrounding whitespace,
accepts an optional sign, then digits (underscores allowed between
digits); raises `ValueError` (here: `Option.none`) otherwise. -/
def pyIntOfString (s : String) : Option Int :=
  parseSigned ((s.toList.dropWhile Char.isWhitespace).reverse.dropWhile
    Char.isWhitespace).reverse

/-- Parsed JSON document (tree level; no floats are needed by the claims). -/
inductive Jx where
  | null
  | bool (b : Bool)
  | int (n : Int)
  | str (s : String)
  | arr (xs : List Jx)
  | obj (kvs : List (String × Jx))
deriving Repr

/-- JSON text: `Option.none` models text `json.loads` rejects. -/
abbrev JTxt := Option Jx

mutual

/-- Model of `json.dumps` at tree level: total on the embedded values
(a tuple is emitted as a JSON array, exactly as `json.dumps` does). -/
def dumps : PyValue → Jx
  | .none => .null
  | .bool b => .bool b
  | .int n => .int n
  | .str s => .str s
  | .list xs => .arr (dumpsList xs)
  | .tuple xs => .arr (dumpsList xs)
  | .dict kvs => .obj (dumpsDict kvs)

/-- Model of `json.dumps` of each member of a list. -/
def dumpsList : List PyValue → List Jx
  | [] => []
  | x :: xs => dumps x :: dumpsList xs

/-- Model of `json.dumps` of each binding of a dict. -/
def dumpsDict : List (String × PyValue) → List (String × Jx)
  | [] => []
  | (k, v) :: kvs => (k, dumps v) :: dumpsDict kvs

end

mutual

/-- The Python value `json.loads` builds from a parsed document
(arrays become lists, objects become dicts). -/
def jsonToPy : Jx → PyValue
  | .null => .none
  | .bool b => .bool b
  | .int n => .int n
  | .str s => .str s
  | .arr xs => .list (jsonToPyList xs)
  | .obj kvs => .dict (jsonToPyDict kvs)

/-- Model of `json.loads` of each member of an array. -/
def jsonToPyList : List Jx → List PyValue
  | [] => []
  | x :: xs => jsonToPy x :: jsonToPyList xs

/-- Model of `json.loads` of each binding of an object. -/
def jsonToPyDict : List (String × Jx) → List (String × PyValue)
  | [] => []
  | (k, v) :: kvs => (k, jsonToPy v) :: jsonToPyDict kvs

end

/-- Exceptions (`nativeconfig/exceptions.py` plus anything uncaught):
`validationError` and `deserializationError` are the library's own error
classes; `uncaught` covers `ValueError`/`TypeError`/`AttributeError`
raised by builtins, which no `except` clause of the translated code
names. -/
inductive PyErr where
  | validationError
  | deserializationError
  | uncaught
deriving Repr, DecidableEq

/-- The `ValueSource` enum of `base_option.py`. -/
inductive ValueSource where
  | resolver
  | default
  | config
  | one_shot
  | env
deriving Repr, DecidableEq

/-- The scalar option classes embedded here (`allowEmpty` is
`StringOption`'s `allow_empty` keyword). -/
inductive ScalarKind where
  | boolK
  | intK
  | strK (allowEmpty : Bool)
deriving Repr, DecidableEq

/-- The option classes the claims quantify over: the three scalar kinds
plus `ArrayOption`/`DictOption` built over a scalar `value_option`. -/
inductive OptKind where
  | scalar (k : ScalarKind)
  | arrayK (inner : ScalarKind)
  | dictK (inner : ScalarKind)
deriving Repr, DecidableEq

/-- An option's construction-time configuration (`BaseOption.__init__`
fields that the embedded operations read).  `default = PyValue.none`
models "no default"; `allowCache` is the boolean the expression
`self._allow_cache or ...` sees (`None` and `False` coincide). -/
structure OptCfg where
  name : String
  kind : OptKind
  choices : Option (List PyValue) := Option.none
  envName : Option String := Option.none
  default : PyValue := .none
  allowCache : Bool := false
deriving Repr

/-- The mutable one-shot state a `BaseOption` instance carries
(`_one_shot_value` / `_is_one_shot_value_set`). -/
structure OptState where
  oneShotSet : Bool := false
  oneShotValue : PyValue := .none
deriving Repr

/-! ## Validation (`validate` of each option class) -/

/-- Model of `BaseOption.validate`: `None` passes; with declared choices the value
must be a member (Python `in`, i.e. `==` against each member). -/
def baseValidate (o : OptCfg) (v : PyValue) : Except PyErr Unit :=
  if v.isNone then .ok ()
  else
    match o.choices with
    | some cs => if cs.any (fun c => pyEq c v) then .ok () else .error .validationError
    | Option.none => .ok ()

/-- The `validate` of the scalar classes: `super().validate` then the class's
own `isinstance` check (`StringOption` additionally rejects the empty
string when `allow_empty` is false). -/
def scalarValidate (k : ScalarKind) (o : OptCfg) (v : PyValue) : Except PyErr Unit := do
  baseValidate o v
  match k with
  | .boolK => if isinstanceBool v then .ok () else .error .validationError
  | .intK => if isinstanceInt v then .ok () else .error .validationError
  | .strK allowEmpty =>
    match v with
    | .str s => if !allowEmpty && s = "" then .error .validationError else .ok ()
    | _ => .error .validationError

/-- The `validate` of the embedded option classes.  Note that
`ArrayOption.validate`/`DictOption.validate` check only the container
shape; they never consult the inner option. -/
def validate (o : OptCfg) (v : PyValue) : Except PyErr Unit := do
  match o.kind with
  | .scalar k => scalarValidate k o v
  | .arrayK _ =>
    baseValidate o v
    if isinstanceListOrTuple v then .ok () else .error .validationError
  | .dictK _ =>
    baseValidate o v
    if isinstanceDict v then .ok () else .error .validationError

/-! ## Raw (de)serialization -/

/-- Constant `BooleanOption.TRUE_RAW_VALUES`. -/
def TRUE_RAW_VALUES : List String := ["1", "YES", "TRUE", "ON"]

/-- Constant `BooleanOption.FALSE_RAW_VALUES`. -/
def FALSE_RAW_VALUES : List String := ["0", "NO", "FALSE", "OFF"]

/-- ASCII uppercasing of one char. -/
def asciiUpper (c : Char) : Char :=
  if 97 ≤ c.toNat && c.toNat ≤ 122 then Char.ofNat (c.toNat - 32) else c

/-- Model of `s.upper()` for the ASCII raw values compared against. -/
def pyUpper (s : String) : String := String.mk (s.toList.map asciiUpper)

/-- The `serialize` of the scalar classes.  `BooleanOption` overrides it with
`'1' if python_value else '0'` (truthiness!); `IntOption` and
`StringOption` inherit `BaseOption.serialize`, i.e. `str(python_value)`. -/
def scalarSerialize (k : ScalarKind) (v : PyValue) : PyValue :=
  match k with
  | .boolK => .str (if pyTruthy v then "1" else "0")
  | .intK => .str (pyStr v)
  | .strK _ => .str (pyStr v)

/-- The `deserialize` of the scalar classes, on an arbitrary raw object:
`BooleanOption` calls `.upper()` (an `AttributeError` on a non-str);
`IntOption` calls `int(...)` (a `TypeError` on non-numeric non-str,
`ValueError`→`DeserializationError` on a bad string); `StringOption`
inherits `str(raw_value)`. -/
def scalarDeserialize (k : ScalarKind) (raw : PyValue) : Except PyErr PyValue :=
  match k with
  | .boolK =>
    match raw with
    | .str s =>
      if TRUE_RAW_VALUES.contains (pyUpper s) then .ok (.bool true)
      else if FALSE_RAW_VALUES.contains (pyUpper s) then .ok (.bool false)
      else .error .deserializationError
    | _ => .error .uncaught
  | .intK =>
    match raw with
    | .int n => .ok (.int n)
    | .bool b => .ok (.int (if b then 1 else 0))
    | .str s =>
      match pyIntOfString s with
      | some n => .ok (.int n)
      | Option.none => .error .deserializationError
    | _ => .error .uncaught
  | .strK _ => .ok (.str (pyStr raw))

/-- The element loop of the container deserializers: deserialize members
in order, the first exception aborting the loop. -/
def rawEach (k : ScalarKind) : List PyValue → Except PyErr (List PyValue)
  | [] => .ok []
  | x :: xs => do
    let v ← scalarDeserialize k x
    let vs ← rawEach k xs
    pure (v :: vs)

/-- The binding loop of `DictOption.deserialize`. -/
def rawEachDict (k : ScalarKind) :
    List (String × PyValue) → Except PyErr (List (String × PyValue))
  | [] => .ok []
  | kv :: kvs => do
    let v ← scalarDeserialize k kv.2
    let vs ← rawEachDict k kvs
    pure ((kv.1, v) :: vs)

/-- Iteration `for i in value` over a Python object: lists and tuples yield their
members, a str yields its characters, a dict yields its keys; anything
else raises `TypeError`. -/
def iterElems : PyValue → Option (List PyValue)
  | .list xs => some xs
  | .tuple xs => some xs
  | .str s => some (s.toList.map (fun c => .str (String.singleton c)))
  | .dict kvs => some (kvs.map (fun kv => .str kv.1))
  | _ => Option.none

/-- The `serialize` of the embedded option classes.  The containers map the
inner option's `serialize` over their members (`ArrayOption.serialize`
iterates `value`; `DictOption.serialize` iterates `value.items()`,
raising `AttributeError` on a non-dict). -/
def serialize (o : OptCfg) (v : PyValue) : Except PyErr PyValue :=
  match o.kind with
  | .scalar k => .ok (scalarSerialize k v)
  | .arrayK inner =>
    match iterElems v with
    | some es => .ok (.list (es.map (scalarSerialize inner)))
    | Option.none => .error .uncaught
  | .dictK inner =>
    match v with
    | .dict kvs => .ok (.dict (kvs.map (fun kv => (kv.1, scalarSerialize inner kv.2))))
    | _ => .error .uncaught

/-- The `deserialize` of the embedded option classes.  The containers map the
inner option's `deserialize` over the raw members and re-wrap an inner
`DeserializationError` into their own (`except DeserializationError`
clauses in `array_option.py`/`dict_option.py`); other exceptions
propagate. -/
def deserialize (o : OptCfg) (raw : PyValue) : Except PyErr PyValue :=
  match o.kind with
  | .scalar k => scalarDeserialize k raw
  | .arrayK inner =>
    match iterElems raw with
    | some es =>
      match rawEach inner es with
      | .ok vs => .ok (.list vs)
      | .error e => .error e
    | Option.none => .error .uncaught
  | .dictK inner =>
    match raw with
    | .dict kvs =>
      match rawEachDict inner kvs with
      | .ok ws => .ok (.dict ws)
      | .error e => .error e
    | _ => .error .uncaught

/-! ## Wire/JSON (de)serialization -/

/-- The `serialize_json` of the scalar classes: none of them overrides
`BaseOption.serialize_json`, i.e. `json.dumps(python_value)`. -/
def scalarSerializeJson (v : PyValue) : Jx := dumps v

/-- The `deserialize_json` of the scalar classes, applied to JSON text.
`BooleanOption` parses via the *base* `json.loads` (so unparsable text
raises a bare `ValueError`, uncaught); `IntOption`/`StringOption` wrap
the parse in `try/except ValueError` and raise `DeserializationError`.
All three type-check the non-null result (`bool` passes the
`isinstance(value, int)` check of `IntOption`, which then applies
`int(...)`). -/
def scalarDeserializeJson (k : ScalarKind) (txt : JTxt) : Except PyErr PyValue :=
  match k with
  | .boolK =>
    match txt with
    | Option.none => .error .uncaught
    | some j =>
      let v := jsonToPy j
      if v.isNone then .ok .none
      else if isinstanceBool v then .ok v
      else .error .deserializationError
  | .intK =>
    match txt with
    | Option.none => .error .deserializationError
    | some j =>
      let v := jsonToPy j
      match v with
      | .none => .ok .none
      | .bool b => .ok (.int (if b then 1 else 0))
      | .int n => .ok (.int n)
      | _ => .error .deserializationError
  | .strK _ =>
    match txt with
    | Option.none => .error .deserializationError
    | some j =>
      let v := jsonToPy j
      match v with
      | .none => .ok .none
      | .str s => .ok (.str s)
      | _ => .error .deserializationError

/-- The `serialize_json` of the embedded option classes.  The containers
short-circuit `None` to `null` and otherwise hand-assemble the JSON
array/object from each member's own wire encoding (modelled as tree
assembly); `ArrayOption` iterates `value` (a `TypeError` on a
non-iterable), `DictOption` iterates `value.items()`. -/
def serializeJson (o : OptCfg) (v : PyValue) : Except PyErr Jx :=
  match o.kind with
  | .scalar _ => .ok (scalarSerializeJson v)
  | .arrayK _ =>
    if v.isNone then .ok .null
    else
      match iterElems v with
      | some es => .ok (.arr (es.map scalarSerializeJson))
      | Option.none => .error .uncaught
  | .dictK _ =>
    if v.isNone then .ok .null
    else
      match v with
      | .dict kvs => .ok (.obj (kvs.map (fun kv => (kv.1, scalarSerializeJson kv.2))))
      | _ => .error .uncaught

/-- The element loop of `ArrayOption.deserialize_json`: each parsed
member is re-dumped and fed to the inner option's `deserialize_json`
(the identity at tree level). -/
def jsonEach (k : ScalarKind) : List Jx → Except PyErr (List PyValue)
  | [] => .ok []
  | x :: xs => do
    let v ← scalarDeserializeJson k (some x)
    let vs ← jsonEach k xs
    pure (v :: vs)

/-- The binding loop of `DictOption.deserialize_json`. -/
def jsonEachDict (k : ScalarKind) :
    List (String × Jx) → Except PyErr (List (String × PyValue))
  | [] => .ok []
  | kv :: kvs => do
    let v ← scalarDeserializeJson k (some kv.2)
    let vs ← jsonEachDict k kvs
    pure ((kv.1, v) :: vs)

/-- The `deserialize_json` of the embedded option classes.  The containers
parse (wrapping a parse failure into `DeserializationError`), pass
`null` through as `None`, require a JSON array/object, and feed each
member (re-dumped, then re-parsed — the identity at tree level) to the
inner option's `deserialize_json`. -/
def deserializeJson (o : OptCfg) (txt : JTxt) : Except PyErr PyValue :=
  match o.kind with
  | .scalar k => scalarDeserializeJson k txt
  | .arrayK inner =>
    match txt with
    | Option.none => .error .deserializationError
    | some j =>
      match j with
      | .null => .ok .none
      | .arr xs =>
        match jsonEach inner xs with
        | .ok vs => .ok (.list vs)
        | .error e => .error e
      | _ => .error .deserializationError
  | .dictK inner =>
    match txt with
    | Option.none => .error .deserializationError
    | some j =>
      match j with
      | .null => .ok .none
      | .obj kvs =>
        match jsonEachDict inner kvs with
        | .ok ws => .ok (.dict ws)
        | .error e => .error e
      | _ => .error .deserializationError

/-! ## The memory-backed config (`memory_config.py` + the cache layer of
`base_config.py`) -/

/-- A mutation of the backend store, recorded so that frame properties
("no backend write happened") can be stated. -/
inductive BackendOp where
  | setOp (name : String) (raw : PyValue)
  | delOp (name : String)
deriving Repr

/-- Association-list lookup (`d.get(name, None)` yields `Option.none`
for a missing key). -/
def alGet : List (String × PyValue) → String → Option PyValue
  | [], _ => Option.none
  | (k, v) :: rest, n => if k = n then some v else alGet rest n

/-- Assignment `d[name] = v`: update in place if present, else append (Python dicts
preserve insertion order). -/
def alSet : List (String × PyValue) → String → PyValue → List (String × PyValue)
  | [], n, v => [(n, v)]
  | (k, w) :: rest, n, v => if k = n then (k, v) :: rest else (k, w) :: alSet rest n v

/-- Model of `d.pop(name, None)`: drop the binding if present. -/
def alPop : List (String × PyValue) → String → List (String × PyValue)
  | [], _ => []
  | (k, w) :: rest, n => if k = n then rest else (k, w) :: alPop rest n

/-- State of one `MemoryConfig` instance: the backing dict `_config`, the
cache `_cache` (where a cached `PyValue.none` is the "known absent"
marker), and the log of cache-free backend mutations.  `MemoryConfig`
implements the scalar, array and dict backend methods identically on the
same dict, so one family of accessors serves every option kind. -/
structure MemState where
  config : List (String × PyValue) := []
  cache : List (String × PyValue) := []
  ops : List BackendOp := []
deriving Repr

/-- Model of `MemoryConfig.get_value_cache_free` (also `get_array_value_cache_free`
and `get_dict_value_cache_free`): `self._config.get(name, None)`. -/
def get_value_cache_free (s : MemState) (name : String) : PyValue :=
  match alGet s.config name with
  | some r => r
  | Option.none => .none

/-- Model of `MemoryConfig.set_value_cache_free`: store, or pop when the raw value
is `None`. -/
def set_value_cache_free (s : MemState) (name : String) (raw : PyValue) : MemState :=
  { s with
    config := if raw.isNone then alPop s.config name else alSet s.config name raw
    ops := s.ops ++ [.setOp name raw] }

/-- Model of `MemoryConfig.del_value_cache_free`: `self._config.pop(name, None)`. -/
def del_value_cache_free (s : MemState) (name : String) : MemState :=
  { s with config := alPop s.config name, ops := s.ops ++ [.delOp name] }

/-- Model of `BaseConfig.get_value_lock_free`: serve from cache when allowed and
present, else read through and cache the result (possibly the absent
marker). -/
def get_value_lock_free (s : MemState) (name : String) (allowCache : Bool) :
    PyValue × MemState :=
  match allowCache, alGet s.cache name with
  | true, some c => (c, s)
  | _, _ =>
    let v := get_value_cache_free s name
    (v, { s with cache := alSet s.cache name v })

/-- Model of `BaseConfig.set_value_lock_free`: the backend write happens unless
caching is allowed, the name is cached, and the cached raw value `==`
the new one. -/
def set_value_lock_free (s : MemState) (name : String) (raw : PyValue)
    (allowCache : Bool) : MemState :=
  let skip := allowCache &&
    (match alGet s.cache name with
     | some c => pyEq c raw
     | Option.none => false)
  if skip then s
  else
    let s' := set_value_cache_free s name raw
    { s' with cache := alSet s'.cache name raw }

/-- Model of `BaseConfig.del_value_lock_free`: the backend delete happens unless
caching is allowed, the name is cached, and the cached entry `is None`. -/
def del_value_lock_free (s : MemState) (name : String) (allowCache : Bool) : MemState :=
  let skip := allowCache &&
    (match alGet s.cache name with
     | some c => c.isNone
     | Option.none => false)
  if skip then s
  else
    let s' := del_value_cache_free s name
    { s' with cache := alSet s'.cache name .none }

/-- A config's class-level data that `read_value`/`fset` consult: the
`ALLOW_CACHE` blanket flag and the name-keyed registry
(`_ordered_options_by_name`) the default resolver looks options up in.
The lock being elided, the lock-guarded `get_value`/`set_value`/`del_value`
entry points coincide with the lock-free versions above. -/
structure Config where
  allowCacheDefault : Bool := false
  registry : List (String × OptCfg) := []

/-- Model of `BaseConfig.option_for_name`. -/
def option_for_name (cfg : Config) (name : String) : Option OptCfg :=
  match cfg.registry.find? (fun e => e.1 = name) with
  | some e => some e.2
  | Option.none => Option.none

/-- Model of `BaseConfig.resolve_value` (the default resolver): log and return
`self.option_for_name(name).default` — an `AttributeError` (uncaught) if
the name is not registered, since `None.default` does not exist. -/
def resolve_value (cfg : Config) (name : String) : Except PyErr PyValue :=
  match option_for_name cfg name with
  | some o => .ok o.default
  | Option.none => .error .uncaught

/-! ## `BaseOption.read_value` and the property protocol -/

/-- Result of one `read_value` call: the pair the method returns, the
number of times the resolver hook was invoked, and the config state after
the cache-updating getter ran. -/
structure ReadOut where
  value : PyValue
  source : ValueSource
  resolverCalls : Nat
  state : MemState
deriving Repr

/-- The inner closure `make_python_value_from_json_value`:
deserialize the env text, re-validate, and on `DeserializationError` or
`ValidationError` hand off to the resolver (any other exception
propagates).  Returns the value, the source actually reported, and how
often the resolver ran. -/
def make_python_value_from_json_value (o : OptCfg) (cfg : Config) (txt : JTxt)
    (source : ValueSource) : Except PyErr (PyValue × ValueSource × Nat) :=
  match (do let v ← deserializeJson o txt; validate o v; pure v : Except PyErr PyValue) with
  | .ok v => .ok (v, source, 0)
  | .error .uncaught => .error .uncaught
  | .error _ => (resolve_value cfg o.name).map (fun r => (r, ValueSource.resolver, 1))

/-- The inner closure `make_python_value_from_raw_value`: same shape, over
the raw deserializer. -/
def make_python_value_from_raw_value (o : OptCfg) (cfg : Config) (raw : PyValue)
    (source : ValueSource) : Except PyErr (PyValue × ValueSource × Nat) :=
  match (do let v ← deserialize o raw; validate o v; pure v : Except PyErr PyValue) with
  | .ok v => .ok (v, source, 0)
  | .error .uncaught => .error .uncaught
  | .error _ => (resolve_value cfg o.name).map (fun r => (r, ValueSource.resolver, 1))

/-- Model of `BaseOption.read_value`, faithfully following the statement order of
the Python body: the env stage runs when an env name is set and the
variable is present; each later stage runs only while `python_value` is
still `None`; a set one-shot flag short-circuits the backend getter even
when the staged value is `None`; and the final stage falls back to the
default whenever the accumulated value is `None` — whatever its source.
The environment is a map from variable names to optional JSON text. -/
def read_value (o : OptCfg) (os : OptState) (cfg : Config)
    (env : String → Option JTxt) (s : MemState) : Except PyErr ReadOut := do
  let envStage : Except PyErr (PyValue × Option ValueSource × Nat) :=
    match o.envName with
    | some en =>
      match env en with
      | some txt =>
        (make_python_value_from_json_value o cfg txt ValueSource.env).map
          (fun r => (r.1, some r.2.1, r.2.2))
      | Option.none => .ok (.none, Option.none, 0)
    | Option.none => .ok (.none, Option.none, 0)
  let (pv1, src1, calls1) ← envStage
  let (pv2, src2, calls2, s2) ←
    (if pv1.isNone && os.oneShotSet then
      .ok (os.oneShotValue, some ValueSource.one_shot, calls1, s)
    else if pv1.isNone then
      let allowCache := o.allowCache || cfg.allowCacheDefault
      let (raw, s') := get_value_lock_free s o.name allowCache
      if raw.isNone then .ok (PyValue.none, src1, calls1, s')
      else
        (make_python_value_from_raw_value o cfg raw ValueSource.config).map
          (fun r => (r.1, some r.2.1, calls1 + r.2.2, s'))
    else .ok (pv1, src1, calls1, s) :
      Except PyErr (PyValue × Option ValueSource × Nat × MemState))
  if pv2.isNone then
    pure ⟨o.default, ValueSource.default, calls2, s2⟩
  else
    -- A non-None value always carries the source that produced it; the
    -- fallback arm of `getD` is unreachable.
    pure ⟨pv2, src2.getD ValueSource.default, calls2, s2⟩

/-- Model of `BaseOption.fget`: first component of `read_value`. -/
def fget (o : OptCfg) (os : OptState) (cfg : Config)
    (env : String → Option JTxt) (s : MemState) : Except PyErr PyValue :=
  (read_value o os cfg env s).map (·.value)

/-- Outcome of `fset`/`fdel`: the option state (the one-shot override is
cleared before anything can fail), the config state, and the exception
that propagated to the caller, if any. -/
structure WriteOut where
  optState : OptState
  state : MemState
  error : Option PyErr := Option.none
deriving Repr

/-- Model of `BaseOption.fdel`: clear the one-shot override, then delete through
the cache-aware deleter. -/
def fdel (o : OptCfg) (cfg : Config) (s : MemState) : WriteOut :=
  let allowCache := o.allowCache || cfg.allowCacheDefault
  ⟨⟨false, .none⟩, del_value_lock_free s o.name allowCache, Option.none⟩

/-- Model of `BaseOption.fset`: clear the one-shot override first; then, for a
non-None value, validate, serialize and store through the cache-aware
setter (a `ValidationError` propagates to the caller, after the one-shot
reset and before any backend access); setting `None` delegates to
`fdel`. -/
def fset (o : OptCfg) (cfg : Config) (v : PyValue) (s : MemState) : WriteOut :=
  if v.isNone then fdel o cfg s
  else
    match validate o v with
    | .error e => ⟨⟨false, .none⟩, s, some e⟩
    | .ok _ =>
      match serialize o v with
      | .error e => ⟨⟨false, .none⟩, s, some e⟩
      | .ok raw =>
        let allowCache := o.allowCache || cfg.allowCacheDefault
        ⟨⟨false, .none⟩, set_value_lock_free s o.name raw allowCache, Option.none⟩

/-- Model of `BaseOption.set_one_shot_value`: validate a non-None value (an
invalid one raises before anything is staged), then stage it — `None`
included — and set the flag. -/
def set_one_shot_value (o : OptCfg) (os : OptState) (v : PyValue) :
    OptState × Option PyErr :=
  if v.isNone then (⟨true, v⟩, Option.none)
  else
    match validate o v with
    | .error e => (os, some e)
    | .ok _ => (⟨true, v⟩, Option.none)

/-! ## The ordered option registry (`_OrderedClass.__new__`) -/

/-- The concrete `BaseOption` subclasses of the repository; each one
derives directly from `BaseOption`. -/
inductive OptClass where
  | baseC
  | boolC
  | intC
  | strC
  | floatC
  | pathC
  | enumC
  | arrayC
  | dictC
deriving Repr, DecidableEq

/-- Model of `isinstance(new_option, old_option.__class__)`: with the repository's
flat hierarchy, the new class must equal the old one, or the old one must
be `BaseOption` itself. -/
def isSubclassOf (c d : OptClass) : Bool := c == d || d == .baseC

/-- A declared option as the metaclass sees it: the attribute it is bound
to, its storage name, and its class. -/
structure OptDecl where
  attr : String
  name : String
  cls : OptClass
deriving Repr, DecidableEq

/-- Registry lookup in an ordered association list. -/
def rgGet : List (String × OptDecl) → String → Option OptDecl
  | [], _ => Option.none
  | (k, v) :: rest, n => if k = n then some v else rgGet rest n

/-- Model of `OrderedDict.pop(key, None)`: the list without the binding. -/
def rgPop : List (String × OptDecl) → String → List (String × OptDecl)
  | [], _ => []
  | (k, v) :: rest, n => if k = n then rest else (k, v) :: rgPop rest n

/-- The two ordered dicts `_OrderedClass.__new__` accumulates. -/
structure Registry where
  byName : List (String × OptDecl) := []
  byAttr : List (String × OptDecl) := []
deriving Repr, DecidableEq

/-- The nested `add_option` of `_OrderedClass.__new__`: pop any entry for
the same storage name (the replacement must be an instance of the
replaced option's class, else `ValueError`), pop any entry for the same
attribute (which must not rename the option, else `ValueError`), then
append the new entry at the end of both dicts. -/
def add_option (r : Registry) (d : OptDecl) : Except String Registry :=
  let oldByName := rgGet r.byName d.name
  let byName1 := rgPop r.byName d.name
  if (match oldByName with
      | some old => !isSubclassOf d.cls old.cls
      | Option.none => false) then
    .error "overridden as incompatible class"
  else
    let oldByAttr := rgGet r.byAttr d.attr
    let byAttr1 := rgPop r.byAttr d.attr
    if (match oldByAttr with
        | some oa => oa.name != d.name
        | Option.none => false) then
      .error "identically named attributes represent different options"
    else
      .ok ⟨byName1 ++ [(d.name, d)], byAttr1 ++ [(d.attr, d)]⟩

/-- Fold `add_option` over a sequence of declarations. -/
def add_options : Registry → List OptDecl → Except String Registry
  | r, [] => .ok r
  | r, d :: ds => do add_options (← add_option r d) ds

/-- Model of `_OrderedClass.__new__` flattens the declarations of the ancestor
classes oldest-to-newest (`reversed(mro[1:])`), followed by the class
body being defined, and folds `add_option` over the result; for a linear
hierarchy replaying each ancestor's already-merged registry equals
folding the ancestors' own declaration lists in order, which is the form
used here. -/
def buildRegistry (layers : List (List OptDecl)) : Except String Registry :=
  add_options ⟨[], []⟩ layers.flatten

/-! ## `ChainConfig.__getattr__` (`chain_config.py`) -/

/-- One config of a chain, as consulted for a fixed attribute: the option
the attribute is bound to in that config, the option's one-shot state,
the config's class data, its environment and its backend state. -/
structure ChainEntry where
  opt : OptCfg
  optState : OptState := {}
  cfg : Config := {}
  env : String → Option JTxt
  state : MemState := {}

/-- The `for ... else` loop of `ChainConfig.__getattr__`: the first read
whose source is not `default` wins immediately; otherwise the first
non-None default-sourced value is remembered and returned when the chain
is exhausted. -/
def chainLoop (entries : List ChainEntry) (dflt : PyValue) : Except PyErr PyValue :=
  match entries with
  | [] => .ok dflt
  | e :: rest => do
    let r ← read_value e.opt e.optState e.cfg e.env e.state
    if r.source ≠ ValueSource.default then .ok r.value
    else chainLoop rest (if dflt.isNone then r.value else dflt)

/-- Model of `ChainConfig.__getattr__` for a known attribute: consult the
synthetic temporary config first (its value wins when its source is not
`default` and the value is not `None`), then run the loop over the
member configs declaring the attribute, in chain order. -/
def chainGetattr (temp : ChainEntry) (entries : List ChainEntry) :
    Except PyErr PyValue := do
  let t ← read_value temp.opt temp.optState temp.cfg temp.env temp.state
  if t.source ≠ ValueSource.default ∧ t.value.isNone = false then .ok t.value
  else chainLoop entries PyValue.none

/-! ## Statement-side predicates

`canonicalScalar`/`canonicalFor` pick out the values of an option kind's
canonical native type; they are used to state the amended round-trip
property (the original claim quantifies over everything `validate`
accepts, which is strictly larger). -/

/-- An actual bool / int / str — not merely `isinstance`-compatible
(a Python bool is `isinstance`-compatible with `int` but not canonical
for `IntOption`). -/
def canonicalScalar : ScalarKind → PyValue → Bool
  | .boolK, .bool _ => true
  | .intK, .int _ => true
  | .strK _, .str _ => true
  | _, _ => false

/-- Canonical native values of each embedded option kind: for the
containers, a list (not a tuple) / a dict whose members are canonical for
the inner option. -/
def canonicalFor : OptKind → PyValue → Bool
  | .scalar k, v => canonicalScalar k v
  | .arrayK k, .list xs => xs.all (canonicalScalar k)
  | .arrayK _, _ => false
  | .dictK k, .dict kvs => kvs.all (fun kv => canonicalScalar k kv.2)
  | .dictK _, _ => false

/-- Python-dict well-formedness: at every level, dict keys are distinct
(every value reachable from a real Python object satisfies this). -/
def wfKeys : PyValue → Prop
  | .dict kvs => (kvs.map Prod.fst).Nodup
  | _ => True

/-! ## Supporting lemmas: decimal rendering and `int(...)` parsing -/

/-- Decoding of a digit string, left to right. -/
def decVal : Nat → List Char → Nat
  | acc, [] => acc
  | acc, c :: cs => decVal (acc * 10 + (c.toNat - 48)) cs

theorem decVal_nil (a : Nat) : decVal a [] = a := rfl

theorem decVal_cons (a : Nat) (c : Char) (cs : List Char) :
    decVal a (c :: cs) = decVal (a * 10 + (c.toNat - 48)) cs := rfl

theorem digitsToNat_go_nil (e : Bool) (acc : Nat) :
    digitsToNat.go [] e acc = if e then Option.none else some acc := rfl

theorem digitsToNat_go_cons (c : Char) (cs : List Char) (e : Bool) (acc : Nat) :
    digitsToNat.go (c :: cs) e acc =
      if isAsciiDigit c then digitsToNat.go cs false (acc * 10 + (c.toNat - 48))
      else if c = '_' then
        (if e then Option.none else digitsToNat.go cs true acc)
      else Option.none := rfl

theorem digitsToNat_def (cs : List Char) : digitsToNat cs = digitsToNat.go cs true 0 := rfl

theorem digitChar48_toNat (d : Nat) (hd : d < 10) : (digitChar48 d).toNat = 48 + d := by
  interval_cases d <;> rfl

theorem isAsciiDigit_digitChar48 (d : Nat) (hd : d < 10) :
    isAsciiDigit (digitChar48 d) = true := by
  interval_cases d <;> rfl

theorem natDecimalChars_ne_nil (n : Nat) : natDecimalChars n ≠ [] := by
  rw [natDecimalChars]
  split
  · simp
  · simp

theorem natDecimalChars_digits (n : Nat) :
    ∀ c ∈ natDecimalChars n, isAsciiDigit c = true := by
  induction n using natDecimalChars.induct with
  | case1 n h =>
    rw [natDecimalChars, dif_pos h]
    intro c hc
    simp only [List.mem_singleton] at hc
    subst hc
    exact isAsciiDigit_digitChar48 n h
  | case2 n h ih =>
    rw [natDecimalChars, dif_neg h]
    intro c hc
    rcases List.mem_append.mp hc with h1 | h2
    · exact ih c h1
    · simp only [List.mem_singleton] at h2
      subst h2
      exact isAsciiDigit_digitChar48 _ (Nat.mod_lt _ (by omega))

theorem decVal_append_digit (xs : List Char) (c : Char) (a : Nat) :
    decVal a (xs ++ [c]) = decVal a xs * 10 + (c.toNat - 48) := by
  induction xs generalizing a with
  | nil => simp [decVal_nil, decVal_cons]
  | cons x xs ih => simp only [List.cons_append, decVal_cons, ih]

theorem decVal_natDecimalChars (n : Nat) : decVal 0 (natDecimalChars n) = n := by
  induction n using natDecimalChars.induct with
  | case1 n h =>
    rw [natDecimalChars, dif_pos h]
    simp [decVal_nil, decVal_cons, digitChar48_toNat n h]
  | case2 n h ih =>
    rw [natDecimalChars, dif_neg h]
    rw [decVal_append_digit, ih, digitChar48_toNat _ (Nat.mod_lt _ (by omega))]
    omega

theorem digitsToNat_go_digits (cs : List Char) (h : ∀ c ∈ cs, isAsciiDigit c = true)
    (acc : Nat) : digitsToNat.go cs false acc = some (decVal acc cs) := by
  induction cs generalizing acc with
  | nil => rfl
  | cons c cs ih =>
    have hc : isAsciiDigit c = true := h c (List.mem_cons_self c cs)
    rw [digitsToNat_go_cons, if_pos hc, decVal_cons]
    exact ih (fun x hx => h x (List.mem_cons_of_mem c hx)) _

theorem digitsToNat_digits (c : Char) (cs : List Char)
    (h : ∀ x ∈ c :: cs, isAsciiDigit x = true) :
    digitsToNat (c :: cs) = some (decVal 0 (c :: cs)) := by
  have hc : isAsciiDigit c = true := h c (List.mem_cons_self c cs)
  rw [digitsToNat_def, digitsToNat_go_cons, if_pos hc]
  rw [digitsToNat_go_digits cs (fun x hx => h x (List.mem_cons_of_mem c hx))]
  rw [decVal_cons]

theorem not_whitespace_of_43_le (c : Char) (h : 43 ≤ c.toNat) :
    c.isWhitespace = false := by
  have h32 : ¬ c = ' ' := by rintro rfl; exact absurd h (by decide)
  have h9 : ¬ c = '\t' := by rintro rfl; exact absurd h (by decide)
  have h13 : ¬ c = '\r' := by rintro rfl; exact absurd h (by decide)
  have h10 : ¬ c = '\n' := by rintro rfl; exact absurd h (by decide)
  simp [Char.isWhitespace, h32, h9, h13, h10]

theorem digit_not_ws (c : Char) (h : isAsciiDigit c = true) :
    c.isWhitespace = false := by
  apply not_whitespace_of_43_le
  simp only [isAsciiDigit, Bool.and_eq_true, decide_eq_true_eq] at h
  omega

theorem dropWhile_ws_digits (cs : List Char) (h : ∀ c ∈ cs, isAsciiDigit c = true) :
    cs.dropWhile Char.isWhitespace = cs := by
  cases cs with
  | nil => rfl
  | cons c rest =>
    have hws : c.isWhitespace = false := digit_not_ws c (h c (List.mem_cons_self c rest))
    simp [List.dropWhile_cons, hws]

/-- The whitespace trimming of `pyIntOfString` leaves a digit string
unchanged. -/
theorem trim_digits (cs : List Char) (h : ∀ c ∈ cs, isAsciiDigit c = true) :
    ((cs.dropWhile Char.isWhitespace).reverse.dropWhile Char.isWhitespace).reverse = cs := by
  rw [dropWhile_ws_digits cs h]
  rw [dropWhile_ws_digits cs.reverse (fun c hc => h c (List.mem_reverse.mp hc))]
  exact List.reverse_reverse cs

/-- Likewise the trimming leaves a sign-prefixed digit string unchanged. -/
theorem trim_sign_digits (s : Char) (hs : s.isWhitespace = false) (cs : List Char)
    (h : ∀ c ∈ cs, isAsciiDigit c = true) (hne : cs ≠ []) :
    (((s :: cs).dropWhile Char.isWhitespace).reverse.dropWhile Char.isWhitespace).reverse
      = s :: cs := by
  rw [List.dropWhile_cons, hs]
  simp only [Bool.false_eq_true, if_false]
  have hrev : (s :: cs).reverse = cs.reverse ++ [s] := by simp
  rw [hrev]
  cases hc : cs.reverse with
  | nil => exact absurd (by simpa using congrArg List.reverse hc) hne
  | cons c rest =>
    have hcmem : c ∈ cs := List.mem_reverse.mp (hc ▸ List.mem_cons_self c rest)
    have hws : c.isWhitespace = false := digit_not_ws c (h c hcmem)
    simp only [List.cons_append, List.dropWhile_cons, hws]
    simp only [Bool.false_eq_true, if_false]
    rw [← List.cons_append, ← hc, List.reverse_append]
    simp

theorem digit_ne_sign (c : Char) (h : isAsciiDigit c = true) :
    ¬ c = '-' ∧ ¬ c = '+' := by
  simp only [isAsciiDigit, Bool.and_eq_true, decide_eq_true_eq] at h
  constructor <;> rintro rfl <;> revert h <;> decide

/-- Round-trip `int(str(n)) = n`: parsing the decimal rendering of an int recovers
the int. -/
theorem pyIntOfString_pyIntStr (n : Int) : pyIntOfString (pyIntStr n) = some n := by
  by_cases hn : n < 0
  · rw [pyIntStr, if_pos hn, pyIntOfString]
    have hds := natDecimalChars_digits (-n).toNat
    have hne := natDecimalChars_ne_nil (-n).toNat
    have hlist : (String.mk ('-' :: natDecimalChars (-n).toNat)).toList
        = '-' :: natDecimalChars (-n).toNat := rfl
    rw [hlist, trim_sign_digits '-' rfl _ hds hne, parseSigned, if_pos rfl]
    cases hcs : natDecimalChars (-n).toNat with
    | nil => exact absurd hcs hne
    | cons c rest =>
      rw [digitsToNat_digits c rest (fun x hx => hds x (hcs ▸ hx)), ← hcs,
        decVal_natDecimalChars]
      simp only [Option.map_some']
      congr 1
      simp only [Int.ofNat_eq_coe]
      omega
  · rw [pyIntStr, if_neg hn, pyIntOfString]
    have hds := natDecimalChars_digits n.toNat
    have hne := natDecimalChars_ne_nil n.toNat
    have hlist : (String.mk (natDecimalChars n.toNat)).toList
        = natDecimalChars n.toNat := rfl
    rw [hlist, trim_digits _ hds]
    cases hcs : natDecimalChars n.toNat with
    | nil => exact absurd hcs hne
    | cons c rest =>
      have hcd : isAsciiDigit c = true := hds c (hcs ▸ List.mem_cons_self c rest)
      obtain ⟨h1, h2⟩ := digit_ne_sign c hcd
      rw [parseSigned, if_neg h1, if_neg h2]
      rw [digitsToNat_digits c rest (fun x hx => hds x (hcs ▸ hx)), ← hcs,
        decVal_natDecimalChars]
      simp only [Option.map_some']
      congr 1
      simp only [Int.ofNat_eq_coe]
      omega

/-! ## Supporting lemmas: serialization round-trips -/

theorem pyStr_int (n : Int) : pyStr (.int n) = pyIntStr n := by rw [pyStr]

theorem pyStr_str (s : String) : pyStr (.str s) = s := by rw [pyStr]

theorem scalarRawRoundtrip (k : ScalarKind) (v : PyValue)
    (h : canonicalScalar k v = true) :
    scalarDeserialize k (scalarSerialize k v) = .ok v := by
  cases k <;> cases v <;> try exact Bool.noConfusion h
  · rename_i b
    cases b
    · simp [scalarSerialize, pyTruthy, scalarDeserialize, TRUE_RAW_VALUES,
        FALSE_RAW_VALUES, show pyUpper "0" = "0" from by decide]
    · simp [scalarSerialize, pyTruthy, scalarDeserialize, TRUE_RAW_VALUES,
        show pyUpper "1" = "1" from by decide]
  · rename_i n
    simp [scalarSerialize, scalarDeserialize, pyStr_int, pyIntOfString_pyIntStr]
  · rename_i s
    simp [scalarSerialize, scalarDeserialize, pyStr_str]

theorem scalarJsonRoundtrip (k : ScalarKind) (v : PyValue)
    (h : canonicalScalar k v = true) :
    scalarDeserializeJson k (some (dumps v)) = .ok v := by
  cases k <;> cases v <;> try exact Bool.noConfusion h
  all_goals rfl

theorem rawEach_roundtrip (k : ScalarKind) (xs : List PyValue)
    (h : xs.all (canonicalScalar k) = true) :
    rawEach k (xs.map (scalarSerialize k)) = Except.ok xs := by
  induction xs with
  | nil => rfl
  | cons x xs ih =>
    simp only [List.all_cons, Bool.and_eq_true] at h
    rw [List.map_cons, rawEach, scalarRawRoundtrip k x h.1, ih h.2]
    rfl

theorem jsonEach_roundtrip (k : ScalarKind) (xs : List PyValue)
    (h : xs.all (canonicalScalar k) = true) :
    jsonEach k (xs.map dumps) = Except.ok xs := by
  induction xs with
  | nil => rfl
  | cons x xs ih =>
    simp only [List.all_cons, Bool.and_eq_true] at h
    rw [List.map_cons, jsonEach, scalarJsonRoundtrip k x h.1, ih h.2]
    rfl

theorem rawEachDict_roundtrip (k : ScalarKind) (kvs : List (String × PyValue))
    (h : kvs.all (fun kv => canonicalScalar k kv.2) = true) :
    rawEachDict k (kvs.map (fun kv => (kv.1, scalarSerialize k kv.2))) = Except.ok kvs := by
  induction kvs with
  | nil => rfl
  | cons kv rest ih =>
    simp only [List.all_cons, Bool.and_eq_true] at h
    rw [List.map_cons, rawEachDict, scalarRawRoundtrip k kv.2 h.1, ih h.2]
    rfl

theorem jsonEachDict_roundtrip (k : ScalarKind) (kvs : List (String × PyValue))
    (h : kvs.all (fun kv => canonicalScalar k kv.2) = true) :
    jsonEachDict k (kvs.map (fun kv => (kv.1, dumps kv.2))) = Except.ok kvs := by
  induction kvs with
  | nil => rfl
  | cons kv rest ih =>
    simp only [List.all_cons, Bool.and_eq_true] at h
    rw [List.map_cons, jsonEachDict, scalarJsonRoundtrip k kv.2 h.1, ih h.2]
    rfl

/-! ## Supporting lemmas: `Except` bind reduction -/

theorem exceptBindErr {α β : Type} (e : PyErr) (f : α → Except PyErr β) :
    (Except.error e : Except PyErr α) >>= f = .error e := rfl

theorem exceptBindOk {α β : Type} (a : α) (f : α → Except PyErr β) :
    (Except.ok a : Except PyErr α) >>= f = f a := rfl

/-! ## Claim C2: serialization round-trips -/

/-- C2 (counterexample): the claim "for every Option kind and every value
`v` accepted by that Option's `validate`, `deserialize(serialize(v)) == v`"
fails on `IntOption`: `validate(True)` passes (a Python bool is an
`isinstance`-instance of `int`), but `serialize(True)` is `str(True) =
"True"`, and `deserialize("True")` raises `DeserializationError`
(`int("True")` is a `ValueError`), so the raw round-trip does not return
`True` — it raises. -/
theorem claim2_counterexample :
    validate ⟨"LuckyNumber", .scalar .intK, Option.none, Option.none, .none, false⟩
        (.bool true) = .ok ()
    ∧ (serialize ⟨"LuckyNumber", .scalar .intK, Option.none, Option.none, .none, false⟩
        (.bool true)).bind
        (fun raw => deserialize
          ⟨"LuckyNumber", .scalar .intK, Option.none, Option.none, .none, false⟩ raw)
        = .error PyErr.deserializationError := by
  refine ⟨rfl, ?_⟩
  have h1 : pyStr (.bool true) = "True" := by rw [pyStr]; rfl
  show scalarDeserialize .intK (.str (pyStr (.bool true))) = .error .deserializationError
  rw [h1]
  rfl

/-- C2 (amended): for every embedded Option kind (Boolean, Int, String,
Array over a scalar inner option, Dict over a scalar inner option) and
every value `v` that `validate` accepts *and* that is of the kind's
canonical native type (an actual bool / int / str; a list of canonical
inner values; a dict of canonical inner values), both representations
round-trip exactly: `deserialize (serialize v) = v` and
`deserialize_json (serialize_json v) = v`.  (The restriction to canonical
values is forced: `validate` also accepts, e.g., a bool for `IntOption` —
see the counterexample — and a tuple for `ArrayOption`, on which the raw
round-trip raises or returns a list instead of the tuple.) -/
theorem claim2_roundtrip (o : OptCfg) (v : PyValue)
    (hval : validate o v = .ok ())
    (hcanon : canonicalFor o.kind v = true) :
    (serialize o v).bind (fun raw => deserialize o raw) = .ok v
    ∧ (serializeJson o v).bind (fun j => deserializeJson o (some j)) = .ok v := by
  obtain ⟨name, kind, choices, envName, dflt, ac⟩ := o
  cases kind with
  | scalar k =>
    exact ⟨scalarRawRoundtrip k v hcanon, scalarJsonRoundtrip k v hcanon⟩
  | arrayK k =>
    cases v with
    | list xs =>
      constructor
      · show (match rawEach k (xs.map (scalarSerialize k)) with
          | .ok vs => Except.ok (PyValue.list vs)
          | .error e => Except.error e) = Except.ok (.list xs)
        rw [rawEach_roundtrip k xs hcanon]
      · show (match jsonEach k (xs.map dumps) with
          | .ok vs => Except.ok (PyValue.list vs)
          | .error e => Except.error e) = Except.ok (.list xs)
        rw [jsonEach_roundtrip k xs hcanon]
    | none => exact Bool.noConfusion hcanon
    | bool b => exact Bool.noConfusion hcanon
    | int n => exact Bool.noConfusion hcanon
    | str s => exact Bool.noConfusion hcanon
    | tuple xs => exact Bool.noConfusion hcanon
    | dict kvs => exact Bool.noConfusion hcanon
  | dictK k =>
    cases v with
    | dict kvs =>
      constructor
      · show (match rawEachDict k (kvs.map (fun kv => (kv.1, scalarSerialize k kv.2))) with
          | .ok ws => Except.ok (PyValue.dict ws)
          | .error e => Except.error e) = Except.ok (.dict kvs)
        rw [rawEachDict_roundtrip k kvs hcanon]
      · show (match jsonEachDict k (kvs.map (fun kv => (kv.1, dumps kv.2))) with
          | .ok ws => Except.ok (PyValue.dict ws)
          | .error e => Except.error e) = Except.ok (.dict kvs)
        rw [jsonEachDict_roundtrip k kvs hcanon]
    | none => exact Bool.noConfusion hcanon
    | bool b => exact Bool.noConfusion hcanon
    | int n => exact Bool.noConfusion hcanon
    | str s => exact Bool.noConfusion hcanon
    | list xs => exact Bool.noConfusion hcanon
    | tuple xs => exact Bool.noConfusion hcanon

/-- C2 witness: the amended round-trip at `IntOption`, `v = 5`. -/
theorem claim2_roundtrip_witness :
    (serialize ⟨"LuckyNumber", .scalar .intK, Option.none, Option.none, .none, false⟩
      (.int 5)).bind
      (fun raw => deserialize
        ⟨"LuckyNumber", .scalar .intK, Option.none, Option.none, .none, false⟩ raw)
      = .ok (.int 5)
    ∧ (serializeJson ⟨"LuckyNumber", .scalar .intK, Option.none, Option.none, .none, false⟩
      (.int 5)).bind
      (fun j => deserializeJson
        ⟨"LuckyNumber", .scalar .intK, Option.none, Option.none, .none, false⟩ (some j))
      = .ok (.int 5) :=
  claim2_roundtrip ⟨"LuckyNumber", .scalar .intK, Option.none, Option.none, .none, false⟩
    (.int 5) rfl rfl

/-! ## Claim C7: `validate(None)` and choice membership -/

/-- C7 (counterexample): the claim "for every Option kind, `validate(None)`
passes" fails on `IntOption`: `IntOption.validate` first calls
`super().validate(None)` (which passes) and then unconditionally checks
`isinstance(None, int)`, which is `False`, so it raises
`ValidationError`. -/
theorem claim7_counterexample :
    validate ⟨"Age", .scalar .intK, Option.none, Option.none, .none, false⟩ PyValue.none
      = .error PyErr.validationError := rfl

/-- C7 (amended): `BaseOption.validate(None)` passes (and, with choices
declared, a non-None value passes only when it is `==` to some member),
but the `validate` of every embedded typed Option kind — Int, String,
Boolean, Array, Dict — rejects `None` with `ValidationError`, because
each subclass type-checks the value after the base check; callers guard
`validate` behind an `is not None` test instead. -/
theorem claim7_validate (o : OptCfg) (v : PyValue) (cs : List PyValue) :
    (baseValidate o PyValue.none = .ok ())
    ∧ (validate o PyValue.none = .error PyErr.validationError)
    ∧ (v.isNone = false → o.choices = some cs → validate o v = .ok () →
        cs.any (fun c => pyEq c v) = true) := by
  obtain ⟨name, kind, choices, envName, dflt, ac⟩ := o
  refine ⟨rfl, ?_, ?_⟩
  · cases kind with
    | scalar k => cases k <;> rfl
    | arrayK k => rfl
    | dictK k => rfl
  · intro hnn hch hok
    by_contra hany
    rw [Bool.not_eq_true] at hany
    have hbase : baseValidate ⟨name, kind, choices, envName, dflt, ac⟩ v
        = .error .validationError := by
      simp only [baseValidate, hnn, Bool.false_eq_true, if_false]
      rw [show choices = some cs from hch]
      simp [hany]
    cases kind with
    | scalar k =>
      cases k <;>
        simp_all [validate, scalarValidate, hbase, exceptBindErr]
    | arrayK k => simp_all [validate, hbase, exceptBindErr]
    | dictK k => simp_all [validate, hbase, exceptBindErr]

/-- C7 witness: the amended statement at `IntOption` with choices
`[1, 2]` and value `1`. -/
theorem claim7_validate_witness :
    (1 : Int) = 1 ∧
    [PyValue.int 1, PyValue.int 2].any
      (fun c => pyEq c (PyValue.int 1)) = true :=
  ⟨rfl,
    (claim7_validate
      ⟨"Age", .scalar .intK, some [PyValue.int 1, PyValue.int 2], Option.none, .none, false⟩
      (PyValue.int 1) [PyValue.int 1, PyValue.int 2]).2.2
      rfl rfl
      (by simp [validate, scalarValidate, baseValidate, pyEq, pyNum, isinstanceInt,
        exceptBindOk, PyValue.isNone])⟩

/-! ## Claim C9: container `validate` checks shape only -/

/-- C9 (counterexample): the claim that `ArrayOption(inner).validate`
applies `inner.validate` to every member fails: with `inner = IntOption`,
`validate(["x"])` passes (the shape check is all there is), even though
`IntOption.validate("x")` raises `ValidationError`. -/
theorem claim9_counterexample :
    validate ⟨"IntList", .arrayK .intK, Option.none, Option.none, .none, false⟩
        (.list [.str "x"]) = .ok ()
    ∧ scalarValidate .intK ⟨"Int", .scalar .intK, Option.none, Option.none, .none, false⟩
        (.str "x") = .error PyErr.validationError :=
  ⟨rfl, rfl⟩

/-- C9 (amended): `ArrayOption(inner).validate` and
`DictOption(inner).validate` check exactly the base (choices) condition
plus the container shape (`isinstance(v, (list, tuple))` resp.
`isinstance(v, dict)`); they never invoke the inner option's `validate`
on the members — element-wise treatment happens only in
`serialize`/`deserialize`.  (Stated as an equivalence whose right-hand
side does not mention the members.) -/
theorem claim9_validate_shape_only (o : OptCfg) (k : ScalarKind) (v : PyValue) :
    (o.kind = .arrayK k →
      (validate o v = .ok () ↔
        (baseValidate o v = .ok () ∧ isinstanceListOrTuple v = true)))
    ∧ (o.kind = .dictK k →
      (validate o v = .ok () ↔
        (baseValidate o v = .ok () ∧ isinstanceDict v = true))) := by
  constructor
  · intro hk
    cases hb : baseValidate o v with
    | ok u =>
      cases u
      simp only [validate, hk, hb, exceptBindOk]
      cases hshape : isinstanceListOrTuple v <;> simp [hshape]
    | error e =>
      have : e = PyErr.validationError := by
        revert hb
        unfold baseValidate
        split
        · intro hb; exact absurd hb (by simp)
        · split
          · split
            · intro hb; exact absurd hb (by simp)
            · intro hb; simpa using hb.symm
          · intro hb; exact absurd hb (by simp)
      subst this
      simp [validate, hk, hb, exceptBindErr]
  · intro hk
    cases hb : baseValidate o v with
    | ok u =>
      cases u
      simp only [validate, hk, hb, exceptBindOk]
      cases hshape : isinstanceDict v <;> simp [hshape]
    | error e =>
      have : e = PyErr.validationError := by
        revert hb
        unfold baseValidate
        split
        · intro hb; exact absurd hb (by simp)
        · split
          · split
            · intro hb; exact absurd hb (by simp)
            · intro hb; simpa using hb.symm
          · intro hb; exact absurd hb (by simp)
      subst this
      simp [validate, hk, hb, exceptBindErr]

/-! ## Supporting lemmas: `==`-reflexivity of serialized raw values,
association lists, and the cache-aware setter -/

theorem pyEq_str_self (t : String) : pyEq (.str t) (.str t) = true := by
  rw [pyEq]; simp

theorem scalarSerialize_isStr (k : ScalarKind) (x : PyValue) :
    ∃ t, scalarSerialize k x = .str t := by
  cases k <;> exact ⟨_, rfl⟩

theorem pyEqList_self_of_str (es : List PyValue) (h : ∀ e ∈ es, ∃ t, e = .str t) :
    pyEqList es es = true := by
  induction es with
  | nil => rw [pyEqList]
  | cons x xs ih =>
    obtain ⟨t, rfl⟩ := h x (List.mem_cons_self x xs)
    rw [pyEqList, pyEq_str_self, ih (fun e he => h e (List.mem_cons_of_mem _ he))]
    rfl

theorem pyLookupEq_mem_str (kvs : List (String × PyValue))
    (hnd : (kvs.map Prod.fst).Nodup)
    (hstr : ∀ p ∈ kvs, ∃ t, p.2 = .str t) :
    ∀ p ∈ kvs, pyLookupEq p.1 p.2 kvs = true := by
  induction kvs with
  | nil => intro p hp; cases hp
  | cons q rest ih =>
    obtain ⟨qk, qv⟩ := q
    simp only [List.map_cons, List.nodup_cons] at hnd
    intro p hp
    rcases List.mem_cons.mp hp with hpq | hmem
    · have hstrp := hstr p hp
      rw [hpq] at hstrp ⊢
      obtain ⟨t, ht⟩ := hstrp
      show pyLookupEq qk qv ((qk, qv) :: rest) = true
      rw [pyLookupEq, if_pos rfl]
      rw [show qv = .str t from ht]
      exact pyEq_str_self t
    · have hne : p.1 ≠ qk := by
        intro hcontra
        exact hnd.1 (hcontra ▸ List.mem_map_of_mem Prod.fst hmem)
      rw [pyLookupEq, if_neg hne]
      exact ih hnd.2 (fun x hx => hstr x (List.mem_cons_of_mem _ hx)) p hmem

theorem pyDictSub_of_forall (l kvs : List (String × PyValue))
    (h : ∀ p ∈ l, pyLookupEq p.1 p.2 kvs = true) :
    pyDictSub l kvs = true := by
  induction l with
  | nil => rw [pyDictSub]
  | cons q rest ih =>
    obtain ⟨qk, qv⟩ := q
    rw [pyDictSub, h (qk, qv) (List.mem_cons_self _ _),
      ih (fun p hp => h p (List.mem_cons_of_mem _ hp))]
    rfl

theorem pyEq_dict_self_of_str (kvs : List (String × PyValue))
    (hnd : (kvs.map Prod.fst).Nodup)
    (hstr : ∀ p ∈ kvs, ∃ t, p.2 = .str t) :
    pyEq (.dict kvs) (.dict kvs) = true := by
  rw [pyEq]
  rw [pyDictSub_of_forall kvs kvs (pyLookupEq_mem_str kvs hnd hstr)]
  simp

theorem serialize_ok_of_validate (o : OptCfg) (v : PyValue)
    (hval : validate o v = .ok ()) : ∃ raw, serialize o v = .ok raw := by
  cases hk : o.kind with
  | scalar k => exact ⟨scalarSerialize k v, by simp [serialize, hk]⟩
  | arrayK k =>
    simp only [validate, hk] at hval
    cases hb : baseValidate o v with
    | error e => rw [hb, exceptBindErr] at hval; exact absurd hval (by simp)
    | ok u =>
      cases u
      rw [hb, exceptBindOk] at hval
      cases hshape : isinstanceListOrTuple v with
      | false => rw [hshape] at hval; exact absurd hval (by simp)
      | true =>
        cases v <;> try exact Bool.noConfusion hshape
        · rename_i xs
          exact ⟨.list (xs.map (scalarSerialize k)), by simp [serialize, hk, iterElems]⟩
        · rename_i xs
          exact ⟨.list (xs.map (scalarSerialize k)), by simp [serialize, hk, iterElems]⟩
  | dictK k =>
    simp only [validate, hk] at hval
    cases hb : baseValidate o v with
    | error e => rw [hb, exceptBindErr] at hval; exact absurd hval (by simp)
    | ok u =>
      cases u
      rw [hb, exceptBindOk] at hval
      cases hshape : isinstanceDict v with
      | false => rw [hshape] at hval; exact absurd hval (by simp)
      | true =>
        cases v <;> try exact Bool.noConfusion hshape
        rename_i kvs
        exact ⟨.dict (kvs.map (fun kv => (kv.1, scalarSerialize k kv.2))),
          by simp [serialize, hk]⟩

theorem serializedRaw_pyEq_self (o : OptCfg) (v raw : PyValue) (hwf : wfKeys v)
    (hs : serialize o v = .ok raw) : pyEq raw raw = true := by
  cases hk : o.kind with
  | scalar k =>
    simp only [serialize, hk, Except.ok.injEq] at hs
    obtain ⟨t, ht⟩ := scalarSerialize_isStr k v
    rw [← hs, ht]
    exact pyEq_str_self t
  | arrayK k =>
    simp only [serialize, hk] at hs
    cases hi : iterElems v with
    | none => rw [hi] at hs; exact absurd hs (by simp)
    | some es =>
      rw [hi] at hs
      simp only [Except.ok.injEq] at hs
      rw [← hs, pyEq]
      apply pyEqList_self_of_str
      intro e he
      obtain ⟨x, _, hx⟩ := List.mem_map.mp he
      obtain ⟨t, ht⟩ := scalarSerialize_isStr k x
      exact ⟨t, hx ▸ ht⟩
  | dictK k =>
    cases v with
    | dict kvs => ?_
    | none => exact absurd hs (by simp [serialize, hk])
    | bool b => exact absurd hs (by simp [serialize, hk])
    | int n => exact absurd hs (by simp [serialize, hk])
    | str t => exact absurd hs (by simp [serialize, hk])
    | list xs => exact absurd hs (by simp [serialize, hk])
    | tuple xs => exact absurd hs (by simp [serialize, hk])
    simp only [serialize, hk, Except.ok.injEq] at hs
    rw [← hs]
    apply pyEq_dict_self_of_str
    · have : ((kvs.map (fun kv => (kv.1, scalarSerialize k kv.2))).map Prod.fst)
          = kvs.map Prod.fst := by
        simp [List.map_map]
      rw [this]
      exact hwf
    · intro p hp
      obtain ⟨q, _, hq⟩ := List.mem_map.mp hp
      obtain ⟨t, ht⟩ := scalarSerialize_isStr k q.2
      exact ⟨t, by rw [← hq]; exact ht⟩

theorem alGet_alSet_self (l : List (String × PyValue)) (n : String) (v : PyValue) :
    alGet (alSet l n v) n = some v := by
  induction l with
  | nil => simp [alSet, alGet]
  | cons p rest ih =>
    obtain ⟨pk, pv⟩ := p
    by_cases hp : pk = n
    · subst hp
      simp [alSet, alGet]
    · simp [alSet, alGet, hp, ih]

theorem set_value_lock_free_cached (s : MemState) (n : String) (raw : PyValue)
    (hself : pyEq raw raw = true) :
    ∃ c, alGet (set_value_lock_free s n raw true).cache n = some c
      ∧ pyEq c raw = true := by
  unfold set_value_lock_free
  cases hget : alGet s.cache n with
  | none =>
    simp only [hget, Bool.true_and, Bool.false_eq_true, if_false]
    exact ⟨raw, alGet_alSet_self _ n raw, hself⟩
  | some c =>
    by_cases hc : pyEq c raw = true
    · simp only [hget, Bool.true_and, hc, if_true]
      exact ⟨c, rfl, hc⟩
    · rw [Bool.not_eq_true] at hc
      simp only [hget, Bool.true_and, hc, Bool.false_eq_true, if_false]
      exact ⟨raw, alGet_alSet_self _ n raw, hself⟩

theorem set_value_lock_free_ops_le (s : MemState) (n : String) (raw : PyValue)
    (ac : Bool) :
    (set_value_lock_free s n raw ac).ops.length ≤ s.ops.length + 1 := by
  rw [set_value_lock_free]
  dsimp only
  split
  · exact Nat.le_succ _
  · simp [set_value_cache_free]

/-- C9 witness: the amended equivalence at `ArrayOption(IntOption)` on
`["x"]`, whose right-hand side evaluates to true — so `validate` passes
despite the member failing the inner validation. -/
theorem claim9_validate_shape_only_witness :
    validate ⟨"IntList", .arrayK .intK, Option.none, Option.none, .none, false⟩
        (.list [.str "x"]) = .ok ()
      ↔ (baseValidate ⟨"IntList", .arrayK .intK, Option.none, Option.none, .none, false⟩
          (.list [.str "x"]) = .ok ()
        ∧ isinstanceListOrTuple (.list [.str "x"]) = true) :=
  (claim9_validate_shape_only
    ⟨"IntList", .arrayK .intK, Option.none, Option.none, .none, false⟩ .intK
    (.list [.str "x"])).1 rfl

/-! ## Claim C4: redundant writes never touch the backend -/

/-- C4: (i) a `set_value` call with caching allowed whose raw value `==`
the cached entry for that name is skipped entirely — the backend dict,
the cache, and the log of backend operations are all unchanged; and
(ii) writing the same Native Value twice through `fset` with caching
enabled leaves the state of the first write untouched, so the two writes
together append at most one backend operation.  (`wfKeys v` records the
Python invariant that dict keys are distinct — every real Python value
satisfies it.) -/
theorem claim4_idempotent_write (s : MemState) (name : String) (raw c : PyValue)
    (o : OptCfg) (cfg : Config) (v : PyValue) (s0 : MemState) :
    (alGet s.cache name = some c → pyEq c raw = true →
      set_value_lock_free s name raw true = s)
    ∧ ((o.allowCache || cfg.allowCacheDefault) = true →
       v.isNone = false → validate o v = .ok () → wfKeys v →
       (fset o cfg v ((fset o cfg v s0).state)).state = (fset o cfg v s0).state
       ∧ (fset o cfg v ((fset o cfg v s0).state)).state.ops.length
           ≤ s0.ops.length + 1) := by
  have skipLemma : ∀ (s' : MemState) (c' : PyValue),
      alGet s'.cache name = some c' → pyEq c' raw = true →
      set_value_lock_free s' name raw true = s' := by
    intro s' c' hget hc
    rw [set_value_lock_free]
    simp only [hget, Bool.true_and, hc, if_true]
  constructor
  · exact skipLemma s c
  · intro hac hnn hval hwf
    obtain ⟨raw0, hs0⟩ := serialize_ok_of_validate o v hval
    have hself : pyEq raw0 raw0 = true := serializedRaw_pyEq_self o v raw0 hwf hs0
    have hfset : ∀ st : MemState,
        fset o cfg v st
          = ⟨⟨false, .none⟩, set_value_lock_free st o.name raw0 true, Option.none⟩ := by
      intro st
      rw [fset]
      simp only [hnn, Bool.false_eq_true, if_false, hval, hs0, hac]
    have skipLemma0 : ∀ (s' : MemState) (c' : PyValue),
        alGet s'.cache o.name = some c' → pyEq c' raw0 = true →
        set_value_lock_free s' o.name raw0 true = s' := by
      intro s' c' hget hc
      rw [set_value_lock_free]
      simp only [hget, Bool.true_and, hc, if_true]
    obtain ⟨c1, hc1, hc2⟩ := set_value_lock_free_cached s0 o.name raw0 hself
    have hsecond : set_value_lock_free (set_value_lock_free s0 o.name raw0 true)
        o.name raw0 true = set_value_lock_free s0 o.name raw0 true :=
      skipLemma0 _ c1 hc1 hc2
    constructor
    · rw [hfset s0, hfset _]
      show set_value_lock_free (set_value_lock_free s0 o.name raw0 true)
        o.name raw0 true = set_value_lock_free s0 o.name raw0 true
      exact hsecond
    · rw [hfset s0, hfset _]
      show (set_value_lock_free (set_value_lock_free s0 o.name raw0 true)
        o.name raw0 true).ops.length ≤ s0.ops.length + 1
      rw [hsecond]
      exact set_value_lock_free_ops_le s0 o.name raw0 true

/-- C4 witness: both parts at concrete inputs — a cache already holding
the raw value `"1"` (part i), and a Boolean option written twice with
caching enabled from the empty state (part ii). -/
theorem claim4_idempotent_write_witness :
    (set_value_lock_free ⟨[("B", .str "1")], [("B", .str "1")], []⟩ "B" (.str "1") true
      = ⟨[("B", .str "1")], [("B", .str "1")], []⟩)
    ∧ ((fset ⟨"B", .scalar .boolK, Option.none, Option.none, .none, true⟩ ⟨false, []⟩
          (.bool true)
          ((fset ⟨"B", .scalar .boolK, Option.none, Option.none, .none, true⟩ ⟨false, []⟩
            (.bool true) ⟨[], [], []⟩).state)).state
        = (fset ⟨"B", .scalar .boolK, Option.none, Option.none, .none, true⟩ ⟨false, []⟩
            (.bool true) ⟨[], [], []⟩).state
      ∧ (fset ⟨"B", .scalar .boolK, Option.none, Option.none, .none, true⟩ ⟨false, []⟩
          (.bool true)
          ((fset ⟨"B", .scalar .boolK, Option.none, Option.none, .none, true⟩ ⟨false, []⟩
            (.bool true) ⟨[], [], []⟩).state)).state.ops.length
        ≤ ([] : List BackendOp).length + 1) :=
  ⟨(claim4_idempotent_write ⟨[("B", .str "1")], [("B", .str "1")], []⟩ "B" (.str "1")
      (.str "1") ⟨"B", .scalar .boolK, Option.none, Option.none, .none, true⟩ ⟨false, []⟩
      (.bool true) ⟨[], [], []⟩).1 rfl (by simp [pyEq]),
   (claim4_idempotent_write ⟨[("B", .str "1")], [("B", .str "1")], []⟩ "B" (.str "1")
      (.str "1") ⟨"B", .scalar .boolK, Option.none, Option.none, .none, true⟩ ⟨false, []⟩
      (.bool true) ⟨[], [], []⟩).2 rfl rfl rfl trivial⟩

/-! ## Claim C5: ordered registry merge with override rules -/

theorem rgPop_of_none (l : List (String × OptDecl)) (n : String)
    (h : rgGet l n = Option.none) : rgPop l n = l := by
  induction l with
  | nil => rfl
  | cons p rest ih =>
    obtain ⟨pk, pd⟩ := p
    by_cases hp : pk = n
    · subst hp
      rw [rgGet, if_pos rfl] at h
      exact absurd h (by simp)
    · rw [rgGet, if_neg hp] at h
      rw [rgPop, if_neg hp, ih h]

/-- C5: the `add_option` fold of `_OrderedClass.__new__` merges
declarations oldest-to-newest and, when a declaration re-uses an
already-accumulated storage name: (i) if the new option's class is not
the same as or a subclass of the replaced one's, registry construction
fails with `ValueError`; (ii) otherwise the old entry is removed and the
new one appended at the end (last declaration wins position); (iii) a
fresh name is simply appended.  Concretely (iv): a base class declaring
"Age" (int kind) and "Name", with a subclass re-declaring "Age" as a
compatible kind, yields a merged registry in which "Age" sits after all
other options and maps to the subclass's declaration; and (v) re-declaring
"Age" as an unrelated kind (`StringOption`) fails at class-definition
time. -/
theorem claim5_registry_merge (r : Registry) (d old : OptDecl) :
    (rgGet r.byName d.name = some old → isSubclassOf d.cls old.cls = false →
      add_option r d = .error "overridden as incompatible class")
    ∧ (rgGet r.byName d.name = some old → isSubclassOf d.cls old.cls = true →
       (∀ oa, rgGet r.byAttr d.attr = some oa → oa.name = d.name) →
       add_option r d = .ok ⟨rgPop r.byName d.name ++ [(d.name, d)],
                             rgPop r.byAttr d.attr ++ [(d.attr, d)]⟩)
    ∧ (rgGet r.byName d.name = Option.none → rgGet r.byAttr d.attr = Option.none →
       add_option r d = .ok ⟨r.byName ++ [(d.name, d)], r.byAttr ++ [(d.attr, d)]⟩)
    ∧ buildRegistry
        [[⟨"age", "Age", .intC⟩, ⟨"name", "Name", .strC⟩], [⟨"age2", "Age", .intC⟩]]
        = .ok ⟨[("Name", ⟨"name", "Name", .strC⟩), ("Age", ⟨"age2", "Age", .intC⟩)],
               [("age", ⟨"age", "Age", .intC⟩), ("name", ⟨"name", "Name", .strC⟩),
                ("age2", ⟨"age2", "Age", .intC⟩)]⟩
    ∧ buildRegistry [[⟨"age", "Age", .intC⟩], [⟨"age", "Age", .strC⟩]]
        = .error "overridden as incompatible class" := by
  refine ⟨?_, ?_, ?_, rfl, rfl⟩
  · intro h1 h2
    rw [add_option]
    simp only [h1, h2, Bool.not_false, if_true]
  · intro h1 h2 h3
    rw [add_option]
    simp only [h1, h2, Bool.not_true, Bool.false_eq_true, if_false]
    cases hoa : rgGet r.byAttr d.attr with
    | none => simp
    | some oa =>
      have := h3 oa hoa
      simp [this]
  · intro h1 h2
    rw [add_option]
    simp only [h1, h2, Bool.false_eq_true, if_false]
    rw [rgPop_of_none _ _ h1, rgPop_of_none _ _ h2]

/-- C5 witness: the override rules applied at concrete registries — a
compatible re-declaration of "Age" (appended at the end), a fresh name,
and an incompatible re-declaration (error). -/
theorem claim5_registry_merge_witness :
    (add_option ⟨[("Age", ⟨"age", "Age", .intC⟩)], [("age", ⟨"age", "Age", .intC⟩)]⟩
        ⟨"age2", "Age", .intC⟩
      = .ok ⟨[("Age", ⟨"age2", "Age", .intC⟩)],
             [("age", ⟨"age", "Age", .intC⟩), ("age2", ⟨"age2", "Age", .intC⟩)]⟩)
    ∧ (add_option ⟨[("Age", ⟨"age", "Age", .intC⟩)], [("age", ⟨"age", "Age", .intC⟩)]⟩
        ⟨"age", "Age", .strC⟩ = .error "overridden as incompatible class") :=
  ⟨(claim5_registry_merge
      ⟨[("Age", ⟨"age", "Age", .intC⟩)], [("age", ⟨"age", "Age", .intC⟩)]⟩
      ⟨"age2", "Age", .intC⟩ ⟨"age", "Age", .intC⟩).2.1 rfl rfl
      (fun oa hoa => by simp [rgGet] at hoa),
   (claim5_registry_merge
      ⟨[("Age", ⟨"age", "Age", .intC⟩)], [("age", ⟨"age", "Age", .intC⟩)]⟩
      ⟨"age", "Age", .strC⟩ ⟨"age", "Age", .intC⟩).1 rfl rfl⟩

/-! ## Claim C6: chain resolution -/

/-- C6: `ChainConfig.__getattr__` evaluates `read_value` config-by-config
in chain order: (i) a read whose source is not `default` wins
immediately; (ii) a default-sourced read passes to the next config,
remembering the first non-None default; (iii) the synthetic temporary
config is consulted first but passes through when its result is
default-sourced (or `None`).  Concretely (iv): with configs `A` (no
explicit value, no default) then `B` (default 9000), both declaring
"Age", the chain read returns 9000; and (v) once `A`'s "Age" has been
written to 33, the chain read returns 33 regardless of `B`. -/
theorem claim6_chain (e temp : ChainEntry) (rest entries : List ChainEntry)
    (d : PyValue) (r t : ReadOut) :
    (read_value e.opt e.optState e.cfg e.env e.state = .ok r →
      r.source ≠ ValueSource.default →
      chainLoop (e :: rest) d = .ok r.value)
    ∧ (read_value e.opt e.optState e.cfg e.env e.state = .ok r →
      r.source = ValueSource.default →
      chainLoop (e :: rest) d = chainLoop rest (if d.isNone then r.value else d))
    ∧ (read_value temp.opt temp.optState temp.cfg temp.env temp.state = .ok t →
      (t.source = ValueSource.default ∨ t.value.isNone = true) →
      chainGetattr temp entries = chainLoop entries PyValue.none)
    ∧ chainGetattr
        ⟨⟨"Age", .scalar .intK, Option.none, Option.none, .none, false⟩,
          ⟨false, .none⟩, ⟨false, []⟩, fun _ => Option.none, ⟨[], [], []⟩⟩
        [⟨⟨"Age", .scalar .intK, Option.none, Option.none, .none, false⟩,
            ⟨false, .none⟩, ⟨false, []⟩, fun _ => Option.none, ⟨[], [], []⟩⟩,
         ⟨⟨"Age", .scalar .intK, Option.none, Option.none, .int 9000, false⟩,
            ⟨false, .none⟩, ⟨false, []⟩, fun _ => Option.none, ⟨[], [], []⟩⟩]
        = .ok (.int 9000)
    ∧ chainGetattr
        ⟨⟨"Age", .scalar .intK, Option.none, Option.none, .none, false⟩,
          ⟨false, .none⟩, ⟨false, []⟩, fun _ => Option.none, ⟨[], [], []⟩⟩
        [⟨⟨"Age", .scalar .intK, Option.none, Option.none, .none, false⟩,
            ⟨false, .none⟩, ⟨false, []⟩, fun _ => Option.none,
            (fset ⟨"Age", .scalar .intK, Option.none, Option.none, .none, false⟩
              ⟨false, []⟩ (.int 33) ⟨[], [], []⟩).state⟩,
         ⟨⟨"Age", .scalar .intK, Option.none, Option.none, .int 9000, false⟩,
            ⟨false, .none⟩, ⟨false, []⟩, fun _ => Option.none, ⟨[], [], []⟩⟩]
        = .ok (.int 33) := by
  have h33chars : natDecimalChars 33 = ['3', '3'] := by
    rw [natDecimalChars, natDecimalChars]
    rfl
  have h33 : pyStr (.int 33) = "33" := by
    rw [pyStr, pyIntStr]
    rw [if_neg (by omega)]
    rw [show (33 : Int).toNat = 33 from rfl, h33chars]
  have hstate : (fset ⟨"Age", .scalar .intK, Option.none, Option.none, .none, false⟩
        ⟨false, []⟩ (.int 33) ⟨[], [], []⟩).state
      = ⟨[("Age", .str "33")], [("Age", .str "33")],
         [.setOp "Age" (.str "33")]⟩ := by
    rw [fset]
    simp only [PyValue.isNone, Bool.false_eq_true, if_false]
    rw [show validate ⟨"Age", .scalar .intK, Option.none, Option.none, .none, false⟩
        (.int 33) = .ok () from rfl]
    rw [show serialize ⟨"Age", .scalar .intK, Option.none, Option.none, .none, false⟩
        (.int 33) = .ok (.str (pyStr (.int 33))) from rfl]
    rw [h33]
    rfl
  refine ⟨?_, ?_, ?_, rfl, ?_⟩
  · intro hread hsrc
    rw [chainLoop]
    rw [hread, exceptBindOk]
    simp [hsrc]
  · intro hread hsrc
    rw [chainLoop]
    rw [hread, exceptBindOk]
    simp [hsrc]
  · intro hread hcond
    rw [chainGetattr]
    rw [hread, exceptBindOk]
    rcases hcond with hs | hv
    · simp [hs]
    · simp [hv]
  · rw [hstate]
    rfl

/-- C6 witness: part (i) — first non-default source wins immediately —
applied to a config whose read is satisfied by a staged one-shot value. -/
theorem claim6_chain_witness :
    chainLoop
      [⟨⟨"Age", .scalar .intK, Option.none, Option.none, .none, false⟩,
          ⟨true, .int 7⟩, ⟨false, []⟩, fun _ => Option.none, ⟨[], [], []⟩⟩]
      PyValue.none = .ok (.int 7) :=
  (claim6_chain
    ⟨⟨"Age", .scalar .intK, Option.none, Option.none, .none, false⟩,
      ⟨true, .int 7⟩, ⟨false, []⟩, fun _ => Option.none, ⟨[], [], []⟩⟩
    ⟨⟨"Age", .scalar .intK, Option.none, Option.none, .none, false⟩,
      ⟨true, .int 7⟩, ⟨false, []⟩, fun _ => Option.none, ⟨[], [], []⟩⟩
    [] []
    PyValue.none ⟨.int 7, .one_shot, 0, ⟨[], [], []⟩⟩
    ⟨.int 7, .one_shot, 0, ⟨[], [], []⟩⟩).1 rfl (by simp)

/-! ## Supporting lemmas: evaluation of `read_value` stage by stage -/

theorem exceptPure {α : Type} (a : α) : (pure a : Except PyErr α) = .ok a := rfl

theorem exceptMapOk {α β : Type} (f : α → β) (a : α) :
    (Except.ok a : Except PyErr α).map f = .ok (f a) := rfl

theorem exceptMapErr {α β : Type} (f : α → β) (e : PyErr) :
    (Except.error e : Except PyErr α).map f = .error e := rfl

theorem read_value_one_shot (o : OptCfg) (os : OptState) (cfg : Config)
    (env : String → Option JTxt) (s : MemState)
    (henv : o.envName = Option.none ∨ ∃ en, o.envName = some en ∧ env en = Option.none)
    (hos : os.oneShotSet = true) (hv : os.oneShotValue.isNone = false) :
    read_value o os cfg env s = .ok ⟨os.oneShotValue, .one_shot, 0, s⟩ := by
  rw [read_value]
  have hstage : (match o.envName with
      | some en =>
        match env en with
        | some txt =>
          (make_python_value_from_json_value o cfg txt ValueSource.env).map
            (fun r => (r.1, some r.2.1, r.2.2))
        | Option.none => .ok (PyValue.none, Option.none, 0)
      | Option.none => .ok (PyValue.none, Option.none, 0)
      : Except PyErr (PyValue × Option ValueSource × Nat))
      = .ok (PyValue.none, Option.none, 0) := by
    rcases henv with h | ⟨en, hen, hvar⟩
    · rw [h]
    · rw [hen]
      dsimp only
      rw [hvar]
  rw [hstage]
  simp only [exceptBindOk, show PyValue.isNone PyValue.none = true from rfl, hos,
    Bool.and_self, if_true, hv, Bool.false_eq_true, if_false]
  rfl

theorem read_value_stored (o : OptCfg) (os : OptState) (cfg : Config)
    (env : String → Option JTxt) (s s2 : MemState) (raw w : PyValue)
    (henv : o.envName = Option.none ∨ ∃ en, o.envName = some en ∧ env en = Option.none)
    (hos : os.oneShotSet = false)
    (hget : get_value_lock_free s o.name (o.allowCache || cfg.allowCacheDefault)
      = (raw, s2))
    (hraw : raw.isNone = false)
    (hd : deserialize o raw = .ok w) (hval : validate o w = .ok ())
    (hw : w.isNone = false) :
    read_value o os cfg env s = .ok ⟨w, .config, 0, s2⟩ := by
  rw [read_value]
  have hstage : (match o.envName with
      | some en =>
        match env en with
        | some txt =>
          (make_python_value_from_json_value o cfg txt ValueSource.env).map
            (fun r => (r.1, some r.2.1, r.2.2))
        | Option.none => .ok (PyValue.none, Option.none, 0)
      | Option.none => .ok (PyValue.none, Option.none, 0)
      : Except PyErr (PyValue × Option ValueSource × Nat))
      = .ok (PyValue.none, Option.none, 0) := by
    rcases henv with h | ⟨en, hen, hvar⟩
    · rw [h]
    · rw [hen]
      dsimp only
      rw [hvar]
  rw [hstage]
  simp only [exceptBindOk, show PyValue.isNone PyValue.none = true from rfl, hos,
    Bool.and_false, Bool.false_eq_true, if_false, if_true, hget]
  simp only [make_python_value_from_raw_value, hd, exceptBindOk, hval, exceptPure,
    hraw, Bool.false_eq_true, if_false, exceptMapOk, hw]
  rfl

theorem read_value_absent (o : OptCfg) (os : OptState) (cfg : Config)
    (env : String → Option JTxt) (s s2 : MemState) (raw : PyValue)
    (henv : o.envName = Option.none ∨ ∃ en, o.envName = some en ∧ env en = Option.none)
    (hos : os.oneShotSet = false)
    (hget : get_value_lock_free s o.name (o.allowCache || cfg.allowCacheDefault)
      = (raw, s2))
    (hraw : raw.isNone = true) :
    read_value o os cfg env s = .ok ⟨o.default, .default, 0, s2⟩ := by
  rw [read_value]
  have hstage : (match o.envName with
      | some en =>
        match env en with
        | some txt =>
          (make_python_value_from_json_value o cfg txt ValueSource.env).map
            (fun r => (r.1, some r.2.1, r.2.2))
        | Option.none => .ok (PyValue.none, Option.none, 0)
      | Option.none => .ok (PyValue.none, Option.none, 0)
      : Except PyErr (PyValue × Option ValueSource × Nat))
      = .ok (PyValue.none, Option.none, 0) := by
    rcases henv with h | ⟨en, hen, hvar⟩
    · rw [h]
    · rw [hen]
      dsimp only
      rw [hvar]
  rw [hstage]
  simp only [exceptBindOk, show PyValue.isNone PyValue.none = true from rfl, hos,
    Bool.and_false, Bool.false_eq_true, if_false, if_true, hget]
  simp only [hraw, if_true, exceptBindOk]
  rfl

theorem read_value_env_hit (o : OptCfg) (os : OptState) (cfg : Config)
    (env : String → Option JTxt) (s : MemState) (en : String) (txt : JTxt)
    (w : PyValue)
    (hen : o.envName = some en) (htxt : env en = some txt)
    (hd : deserializeJson o txt = .ok w) (hval : validate o w = .ok ())
    (hw : w.isNone = false) :
    read_value o os cfg env s = .ok ⟨w, .env, 0, s⟩ := by
  rw [read_value]
  have hstage : (match o.envName with
      | some en =>
        match env en with
        | some txt =>
          (make_python_value_from_json_value o cfg txt ValueSource.env).map
            (fun r => (r.1, some r.2.1, r.2.2))
        | Option.none => .ok (PyValue.none, Option.none, 0)
      | Option.none => .ok (PyValue.none, Option.none, 0)
      : Except PyErr (PyValue × Option ValueSource × Nat))
      = .ok (w, some ValueSource.env, 0) := by
    rw [hen]
    dsimp only
    rw [htxt]
    dsimp only
    simp only [make_python_value_from_json_value, hd, exceptBindOk, hval, exceptPure,
      exceptMapOk]
  rw [hstage]
  simp only [exceptBindOk, hw, Bool.false_eq_true, Bool.false_and, if_false]
  rfl

theorem read_value_resolver (o : OptCfg) (os : OptState) (cfg : Config)
    (env : String → Option JTxt) (s s2 : MemState) (raw : PyValue) (e : PyErr)
    (henv : o.envName = Option.none ∨ ∃ en, o.envName = some en ∧ env en = Option.none)
    (hos : os.oneShotSet = false)
    (hget : get_value_lock_free s o.name (o.allowCache || cfg.allowCacheDefault)
      = (raw, s2))
    (hraw : raw.isNone = false)
    (hfail : (do
        let v ← deserialize o raw
        validate o v
        pure v : Except PyErr PyValue) = .error e)
    (hcatch : e ≠ PyErr.uncaught)
    (hreg : option_for_name cfg o.name = some o) :
    read_value o os cfg env s
      = .ok ⟨o.default, if o.default.isNone then .default else .resolver, 1, s2⟩ := by
  rw [read_value]
  have hstage : (match o.envName with
      | some en =>
        match env en with
        | some txt =>
          (make_python_value_from_json_value o cfg txt ValueSource.env).map
            (fun r => (r.1, some r.2.1, r.2.2))
        | Option.none => .ok (PyValue.none, Option.none, 0)
      | Option.none => .ok (PyValue.none, Option.none, 0)
      : Except PyErr (PyValue × Option ValueSource × Nat))
      = .ok (PyValue.none, Option.none, 0) := by
    rcases henv with h | ⟨en, hen, hvar⟩
    · rw [h]
    · rw [hen]
      dsimp only
      rw [hvar]
  rw [hstage]
  simp only [exceptBindOk, show PyValue.isNone PyValue.none = true from rfl, hos,
    Bool.and_false, Bool.false_eq_true, if_false, if_true, hget]
  have hmake : make_python_value_from_raw_value o cfg raw ValueSource.config
      = .ok (o.default, ValueSource.resolver, 1) := by
    rw [make_python_value_from_raw_value]
    rw [hfail]
    cases e with
    | uncaught => exact absurd rfl hcatch
    | validationError => simp only [resolve_value, hreg]; rfl
    | deserializationError => simp only [resolve_value, hreg]; rfl
  simp only [hraw, Bool.false_eq_true, if_false, hmake, exceptMapOk, exceptBindOk]
  cases hdef : o.default.isNone with
  | true => simp only [hdef, if_true]; rfl
  | false => simp only [hdef, Bool.false_eq_true, if_false]; rfl


/-! ## Claim C1: resolution precedence -/

/-- C1 (counterexample): the claim "read returns the env-parsed value if
the variable is set, else the staged one-shot value if one is set, else
`deserialize(R)`, else the default" fails for a staged one-shot value of
`None` (which `set_one_shot_value` explicitly allows): with no env
override, a staged one-shot `None`, stored raw `"5"` and default `42`,
`read_value` returns `42` with source `default` — not the staged `None`,
and not the stored `5` either. -/
theorem claim1_counterexample :
    read_value ⟨"Age", .scalar .intK, Option.none, Option.none, .int 42, false⟩
        ⟨true, PyValue.none⟩ ⟨false, []⟩ (fun _ => Option.none)
        ⟨[("Age", .str "5")], [], []⟩
      = .ok ⟨.int 42, .default, 0, ⟨[("Age", .str "5")], [], []⟩⟩
    ∧ (⟨true, PyValue.none⟩ : OptState).oneShotSet = true
    ∧ PyValue.int 42 ≠ PyValue.none := by
  refine ⟨rfl, rfl, ?_⟩
  intro h
  exact PyValue.noConfusion h

/-- C1 (amended): the strict precedence env → one-shot → stored → default
holds whenever each consulted stage yields a *non-None* value (a `None`
produced by any stage falls through to the default; a staged one-shot —
even `None` — still suppresses the stored value, and nothing but the env
variable outranks a non-None one-shot): (i) if the env variable is set
and its text deserializes and validates to non-None `w`, read returns
`(w, env)`; (ii) else if a non-None one-shot is staged, read returns it
with source `one_shot`, without touching the backend; (iii) else if the
cache-aware getter yields a present raw value that deserializes and
validates to non-None `w`, read returns `(w, config)`; (iv) else if the
getter yields absence, read returns the default with source `default`. -/
theorem claim1_precedence (o : OptCfg) (os : OptState) (cfg : Config)
    (env : String → Option JTxt) (s s2 : MemState) (raw w : PyValue)
    (en : String) (txt : JTxt) :
    (o.envName = some en → env en = some txt →
      deserializeJson o txt = .ok w → validate o w = .ok () → w.isNone = false →
      read_value o os cfg env s = .ok ⟨w, .env, 0, s⟩)
    ∧ ((o.envName = Option.none ∨ ∃ en2, o.envName = some en2 ∧ env en2 = Option.none) →
      os.oneShotSet = true → os.oneShotValue.isNone = false →
      read_value o os cfg env s = .ok ⟨os.oneShotValue, .one_shot, 0, s⟩)
    ∧ ((o.envName = Option.none ∨ ∃ en2, o.envName = some en2 ∧ env en2 = Option.none) →
      os.oneShotSet = false →
      get_value_lock_free s o.name (o.allowCache || cfg.allowCacheDefault) = (raw, s2) →
      raw.isNone = false → deserialize o raw = .ok w → validate o w = .ok () →
      w.isNone = false →
      read_value o os cfg env s = .ok ⟨w, .config, 0, s2⟩)
    ∧ ((o.envName = Option.none ∨ ∃ en2, o.envName = some en2 ∧ env en2 = Option.none) →
      os.oneShotSet = false →
      get_value_lock_free s o.name (o.allowCache || cfg.allowCacheDefault) = (raw, s2) →
      raw.isNone = true →
      read_value o os cfg env s = .ok ⟨o.default, .default, 0, s2⟩) :=
  ⟨fun h1 h2 h3 h4 h5 => read_value_env_hit o os cfg env s en txt w h1 h2 h3 h4 h5,
   fun h1 h2 h3 => read_value_one_shot o os cfg env s h1 h2 h3,
   fun h1 h2 h3 h4 h5 h6 h7 =>
     read_value_stored o os cfg env s s2 raw w h1 h2 h3 h4 h5 h6 h7,
   fun h1 h2 h3 h4 => read_value_absent o os cfg env s s2 raw h1 h2 h3 h4⟩

/-- C1 witness: the stored-value clause at a concrete `IntOption` with
default 42 and stored raw `"5"`: the read yields 5 from source `config`
and caches the raw value. -/
theorem claim1_precedence_witness :
    read_value ⟨"Age", .scalar .intK, Option.none, Option.none, .int 42, false⟩
        ⟨false, .none⟩ ⟨false, []⟩ (fun _ => Option.none) ⟨[("Age", .str "5")], [], []⟩
      = .ok ⟨.int 5, .config, 0, ⟨[("Age", .str "5")], [("Age", .str "5")], []⟩⟩ :=
  (claim1_precedence ⟨"Age", .scalar .intK, Option.none, Option.none, .int 42, false⟩
    ⟨false, .none⟩ ⟨false, []⟩ (fun _ => Option.none) ⟨[("Age", .str "5")], [], []⟩
    ⟨[("Age", .str "5")], [("Age", .str "5")], []⟩ (.str "5") (.int 5)
    "E" Option.none).2.2.1 (Or.inl rfl) rfl rfl rfl rfl rfl rfl

/-! ## Claim C3: read-time failures are routed to the resolver -/

/-- C3: for an option whose stored Raw Value fails deserialization or
post-deserialization validation (with `DeserializationError` or
`ValidationError` — the two classes `read_value` intercepts), and no env
override or one-shot in the way, `read_value` does not raise: it invokes
the config's resolver hook exactly once (`resolverCalls = 1`), and the
default `resolve_value` returns that option's default (reported with
source `resolver`, or `default` when the default is itself `None`). -/
theorem claim3_resolver (o : OptCfg) (os : OptState) (cfg : Config)
    (env : String → Option JTxt) (s s2 : MemState) (raw : PyValue) (e : PyErr)
    (henv : o.envName = Option.none ∨ ∃ en, o.envName = some en ∧ env en = Option.none)
    (hos : os.oneShotSet = false)
    (hget : get_value_lock_free s o.name (o.allowCache || cfg.allowCacheDefault)
      = (raw, s2))
    (hraw : raw.isNone = false)
    (hfail : (do
        let v ← deserialize o raw
        validate o v
        pure v : Except PyErr PyValue) = .error e)
    (hclass : e = PyErr.deserializationError ∨ e = PyErr.validationError)
    (hreg : option_for_name cfg o.name = some o) :
    read_value o os cfg env s
      = .ok ⟨o.default, if o.default.isNone then .default else .resolver, 1, s2⟩ :=
  read_value_resolver o os cfg env s s2 raw e henv hos hget hraw hfail
    (by rcases hclass with h | h <;> simp [h]) hreg

/-- C3 witness: `IntOption` "LuckyNumber" with default 42 and corrupt
stored raw `"NotANumber"`: the read returns 42 with source `resolver` and
the resolver was invoked exactly once. -/
theorem claim3_resolver_witness :
    read_value ⟨"LuckyNumber", .scalar .intK, Option.none, Option.none, .int 42, false⟩
        ⟨false, .none⟩
        ⟨false, [("LuckyNumber",
          ⟨"LuckyNumber", .scalar .intK, Option.none, Option.none, .int 42, false⟩)]⟩
        (fun _ => Option.none) ⟨[("LuckyNumber", .str "NotANumber")], [], []⟩
      = .ok ⟨.int 42, .resolver, 1,
          ⟨[("LuckyNumber", .str "NotANumber")],
           [("LuckyNumber", .str "NotANumber")], []⟩⟩ :=
  (claim3_resolver ⟨"LuckyNumber", .scalar .intK, Option.none, Option.none, .int 42, false⟩
    ⟨false, .none⟩
    ⟨false, [("LuckyNumber",
      ⟨"LuckyNumber", .scalar .intK, Option.none, Option.none, .int 42, false⟩)]⟩
    (fun _ => Option.none) ⟨[("LuckyNumber", .str "NotANumber")], [], []⟩
    ⟨[("LuckyNumber", .str "NotANumber")], [("LuckyNumber", .str "NotANumber")], []⟩
    (.str "NotANumber") PyErr.deserializationError
    (Or.inl rfl) rfl rfl rfl rfl (Or.inl rfl) rfl)

/-! ## Supporting lemmas: association-list key discipline and deletion -/

theorem alGet_none_of_not_mem (l : List (String × PyValue)) (n : String)
    (h : n ∉ l.map Prod.fst) : alGet l n = Option.none := by
  induction l with
  | nil => rfl
  | cons p rest ih =>
    obtain ⟨pk, pv⟩ := p
    simp only [List.map_cons, List.mem_cons] at h
    push_neg at h
    rw [alGet, if_neg (fun hc => h.1 hc.symm)]
    exact ih h.2

theorem alGet_alPop_none (l : List (String × PyValue)) (n : String)
    (h : (l.map Prod.fst).Nodup) : alGet (alPop l n) n = Option.none := by
  induction l with
  | nil => rfl
  | cons p rest ih =>
    obtain ⟨pk, pv⟩ := p
    simp only [List.map_cons, List.nodup_cons] at h
    by_cases hp : pk = n
    · subst hp
      rw [alPop, if_pos rfl]
      exact alGet_none_of_not_mem rest pk h.1
    · rw [alPop, if_neg hp, alGet, if_neg hp]
      exact ih h.2

theorem alSet_mem_fst (l : List (String × PyValue)) (n : String) (v : PyValue)
    (x : String) (hx : x ∈ (alSet l n v).map Prod.fst) :
    x ∈ l.map Prod.fst ∨ x = n := by
  induction l with
  | nil =>
    simp only [alSet, List.map_cons, List.map_nil, List.mem_singleton] at hx
    exact Or.inr hx
  | cons p rest ih =>
    obtain ⟨pk, pv⟩ := p
    by_cases hp : pk = n
    · subst hp
      rw [alSet, if_pos rfl] at hx
      simp only [List.map_cons, List.mem_cons] at hx ⊢
      rcases hx with h | h
      · exact Or.inl (Or.inl h)
      · exact Or.inl (Or.inr h)
    · rw [alSet, if_neg hp] at hx
      simp only [List.map_cons, List.mem_cons] at hx ⊢
      rcases hx with h | h
      · exact Or.inl (Or.inl h)
      · rcases ih h with h2 | h2
        · exact Or.inl (Or.inr h2)
        · exact Or.inr h2

theorem alSet_nodup (l : List (String × PyValue)) (n : String) (v : PyValue)
    (h : (l.map Prod.fst).Nodup) : ((alSet l n v).map Prod.fst).Nodup := by
  induction l with
  | nil => simp [alSet]
  | cons p rest ih =>
    obtain ⟨pk, pv⟩ := p
    simp only [List.map_cons, List.nodup_cons] at h
    by_cases hp : pk = n
    · subst hp
      rw [alSet, if_pos rfl]
      simp only [List.map_cons, List.nodup_cons]
      exact h
    · rw [alSet, if_neg hp]
      simp only [List.map_cons, List.nodup_cons]
      refine ⟨?_, ih h.2⟩
      intro hc
      rcases alSet_mem_fst rest n v pk hc with h2 | h2
      · exact h.1 h2
      · exact hp h2

theorem alPop_mem_fst (l : List (String × PyValue)) (n : String) (x : String)
    (hx : x ∈ (alPop l n).map Prod.fst) : x ∈ l.map Prod.fst := by
  induction l with
  | nil => exact hx
  | cons p rest ih =>
    obtain ⟨pk, pv⟩ := p
    by_cases hp : pk = n
    · subst hp
      rw [alPop, if_pos rfl] at hx
      exact List.mem_cons_of_mem _ hx
    · rw [alPop, if_neg hp] at hx
      simp only [List.map_cons, List.mem_cons] at hx ⊢
      rcases hx with h | h
      · exact Or.inl h
      · exact Or.inr (ih h)

theorem alPop_nodup (l : List (String × PyValue)) (n : String)
    (h : (l.map Prod.fst).Nodup) : ((alPop l n).map Prod.fst).Nodup := by
  induction l with
  | nil => exact h
  | cons p rest ih =>
    obtain ⟨pk, pv⟩ := p
    simp only [List.map_cons, List.nodup_cons] at h
    by_cases hp : pk = n
    · subst hp
      rw [alPop, if_pos rfl]
      exact h.2
    · rw [alPop, if_neg hp]
      simp only [List.map_cons, List.nodup_cons]
      exact ⟨fun hc => h.1 (alPop_mem_fst rest n pk hc), ih h.2⟩

theorem serialize_ok_not_none (o : OptCfg) (v raw : PyValue)
    (hs : serialize o v = .ok raw) : raw.isNone = false := by
  cases hk : o.kind with
  | scalar k =>
    simp only [serialize, hk, Except.ok.injEq] at hs
    obtain ⟨t, ht⟩ := scalarSerialize_isStr k v
    rw [← hs, ht]
    rfl
  | arrayK k =>
    simp only [serialize, hk] at hs
    cases hi : iterElems v with
    | none => rw [hi] at hs; exact absurd hs (by simp)
    | some es =>
      rw [hi] at hs
      simp only [Except.ok.injEq] at hs
      rw [← hs]
      rfl
  | dictK k =>
    cases v with
    | dict kvs =>
      simp only [serialize, hk, Except.ok.injEq] at hs
      rw [← hs]
      rfl
    | none => exact absurd hs (by simp [serialize, hk])
    | bool b => exact absurd hs (by simp [serialize, hk])
    | int n => exact absurd hs (by simp [serialize, hk])
    | str t => exact absurd hs (by simp [serialize, hk])
    | list xs => exact absurd hs (by simp [serialize, hk])
    | tuple xs => exact absurd hs (by simp [serialize, hk])

theorem pyEq_not_none_left (c raw : PyValue) (h : pyEq c raw = true)
    (hraw : raw.isNone = false) : c.isNone = false := by
  cases c with
  | none =>
    cases raw with
    | none => exact Bool.noConfusion hraw
    | bool b => simp [pyEq] at h
    | int n => simp [pyEq] at h
    | str t => simp [pyEq] at h
    | list xs => simp [pyEq] at h
    | tuple xs => simp [pyEq] at h
    | dict kvs => simp [pyEq] at h
  | bool b => rfl
  | int n => rfl
  | str t => rfl
  | list xs => rfl
  | tuple xs => rfl
  | dict kvs => rfl

theorem svlf_cache_entry (s : MemState) (n : String) (raw : PyValue) (ac : Bool)
    (hraw : raw.isNone = false) :
    ∃ c, alGet (set_value_lock_free s n raw ac).cache n = some c
      ∧ c.isNone = false := by
  rw [set_value_lock_free]
  dsimp only
  split
  · rename_i hskip
    rw [Bool.and_eq_true] at hskip
    cases hget : alGet s.cache n with
    | none => rw [hget] at hskip; exact absurd hskip.2 (by simp)
    | some c =>
      rw [hget] at hskip
      exact ⟨c, rfl, pyEq_not_none_left c raw hskip.2 hraw⟩
  · exact ⟨raw, alGet_alSet_self _ n raw, hraw⟩

theorem svlf_config_nodup (s : MemState) (n : String) (raw : PyValue) (ac : Bool)
    (h : (s.config.map Prod.fst).Nodup) :
    ((set_value_lock_free s n raw ac).config.map Prod.fst).Nodup := by
  rw [set_value_lock_free]
  dsimp only
  split
  · exact h
  · show (((if raw.isNone then alPop s.config n else alSet s.config n raw)).map
      Prod.fst).Nodup
    split
    · exact alPop_nodup _ n h
    · exact alSet_nodup _ n raw h

theorem dvlf_executes (s : MemState) (n : String) (ac : Bool) (c : PyValue)
    (hc : alGet s.cache n = some c) (hcn : c.isNone = false) :
    del_value_lock_free s n ac
      = ⟨alPop s.config n, alSet s.cache n .none, s.ops ++ [.delOp n]⟩ := by
  rw [del_value_lock_free]
  dsimp only
  rw [hc]
  dsimp only
  rw [hcn]
  simp only [Bool.and_false, Bool.false_eq_true, if_false]
  rfl

theorem get_value_lock_free_none (s : MemState) (n : String) (ac : Bool)
    (hcache : alGet s.cache n = some PyValue.none)
    (hconfig : alGet s.config n = Option.none) :
    ∃ s2, get_value_lock_free s n ac = (PyValue.none, s2) := by
  cases ac with
  | true => exact ⟨s, by rw [get_value_lock_free.eq_def, hcache]⟩
  | false =>
    refine ⟨{ s with cache := alSet s.cache n PyValue.none }, ?_⟩
    rw [get_value_lock_free.eq_def]
    dsimp only
    rw [show get_value_cache_free s n = PyValue.none from by
      rw [get_value_cache_free.eq_def, hconfig]]

/-! ## Claim C8: delete resets to the default -/

/-- C8: writing a valid non-None value and then writing `None` (the
delete path) removes the stored Raw Value from the backend dict, clears
the one-shot override, and makes a subsequent read return the default
with source `default`, whether or not caching is enabled.  (The key
hypotheses: no env override is in effect, and the starting backend dict
has distinct keys — the Python dict invariant.) -/
theorem claim8_delete_resets (o : OptCfg) (cfg : Config)
    (env : String → Option JTxt) (v : PyValue) (s : MemState)
    (henv : o.envName = Option.none ∨ ∃ en, o.envName = some en ∧ env en = Option.none)
    (hnn : v.isNone = false) (hval : validate o v = .ok ())
    (hnd : (s.config.map Prod.fst).Nodup) :
    alGet (fset o cfg PyValue.none (fset o cfg v s).state).state.config o.name
      = Option.none
    ∧ (fset o cfg PyValue.none (fset o cfg v s).state).optState
      = ⟨false, .none⟩
    ∧ (read_value o (fset o cfg PyValue.none (fset o cfg v s).state).optState cfg env
        (fset o cfg PyValue.none (fset o cfg v s).state).state).map
        (fun r => (r.value, r.source, r.resolverCalls))
      = .ok (o.default, ValueSource.default, 0) := by
  obtain ⟨raw0, hs0⟩ := serialize_ok_of_validate o v hval
  have hraw0 : raw0.isNone = false := serialize_ok_not_none o v raw0 hs0
  have hfset : fset o cfg v s
      = ⟨⟨false, .none⟩,
         set_value_lock_free s o.name raw0 (o.allowCache || cfg.allowCacheDefault),
         Option.none⟩ := by
    rw [fset]
    simp only [hnn, Bool.false_eq_true, if_false, hval, hs0]
  obtain ⟨c, hc, hcn⟩ := svlf_cache_entry s o.name raw0
    (o.allowCache || cfg.allowCacheDefault) hraw0
  have hnd1 : (((set_value_lock_free s o.name raw0
      (o.allowCache || cfg.allowCacheDefault)).config).map Prod.fst).Nodup :=
    svlf_config_nodup s o.name raw0 _ hnd
  have hfdel : fset o cfg PyValue.none (fset o cfg v s).state
      = ⟨⟨false, .none⟩,
         ⟨alPop (set_value_lock_free s o.name raw0
            (o.allowCache || cfg.allowCacheDefault)).config o.name,
          alSet (set_value_lock_free s o.name raw0
            (o.allowCache || cfg.allowCacheDefault)).cache o.name .none,
          (set_value_lock_free s o.name raw0
            (o.allowCache || cfg.allowCacheDefault)).ops ++ [.delOp o.name]⟩,
         Option.none⟩ := by
    rw [hfset]
    show fdel o cfg _ = _
    rw [fdel, dvlf_executes _ o.name _ c hc hcn]
  refine ⟨?_, by rw [hfdel], ?_⟩
  · rw [hfdel]
    exact alGet_alPop_none _ o.name hnd1
  · rw [hfdel]
    have hcfg2 : alGet (alPop (set_value_lock_free s o.name raw0
        (o.allowCache || cfg.allowCacheDefault)).config o.name) o.name
        = Option.none := alGet_alPop_none _ o.name hnd1
    obtain ⟨s3, hget⟩ := get_value_lock_free_none
      ⟨alPop (set_value_lock_free s o.name raw0
        (o.allowCache || cfg.allowCacheDefault)).config o.name,
       alSet (set_value_lock_free s o.name raw0
        (o.allowCache || cfg.allowCacheDefault)).cache o.name .none,
       (set_value_lock_free s o.name raw0
        (o.allowCache || cfg.allowCacheDefault)).ops ++ [.delOp o.name]⟩
      o.name (o.allowCache || cfg.allowCacheDefault)
      (alGet_alSet_self _ o.name PyValue.none) hcfg2
    rw [read_value_absent o ⟨false, .none⟩ cfg env _ s3 PyValue.none henv rfl hget rfl]
    rfl

/-- C8 witness: a Boolean option with default `True`, written to `False`
and then deleted: the raw value is gone, the one-shot flag is clear, and
the read returns the default `True` from source `default`. -/
theorem claim8_delete_resets_witness :
    alGet (fset ⟨"B", .scalar .boolK, Option.none, Option.none, .bool true, false⟩
        ⟨false, []⟩ PyValue.none
        (fset ⟨"B", .scalar .boolK, Option.none, Option.none, .bool true, false⟩
          ⟨false, []⟩ (.bool false) ⟨[], [], []⟩).state).state.config "B"
      = Option.none
    ∧ (fset ⟨"B", .scalar .boolK, Option.none, Option.none, .bool true, false⟩
        ⟨false, []⟩ PyValue.none
        (fset ⟨"B", .scalar .boolK, Option.none, Option.none, .bool true, false⟩
          ⟨false, []⟩ (.bool false) ⟨[], [], []⟩).state).optState
      = ⟨false, .none⟩
    ∧ (read_value ⟨"B", .scalar .boolK, Option.none, Option.none, .bool true, false⟩
        (fset ⟨"B", .scalar .boolK, Option.none, Option.none, .bool true, false⟩
          ⟨false, []⟩ PyValue.none
          (fset ⟨"B", .scalar .boolK, Option.none, Option.none, .bool true, false⟩
            ⟨false, []⟩ (.bool false) ⟨[], [], []⟩).state).optState
        ⟨false, []⟩ (fun _ => Option.none)
        (fset ⟨"B", .scalar .boolK, Option.none, Option.none, .bool true, false⟩
          ⟨false, []⟩ PyValue.none
          (fset ⟨"B", .scalar .boolK, Option.none, Option.none, .bool true, false⟩
            ⟨false, []⟩ (.bool false) ⟨[], [], []⟩).state).state).map
        (fun r => (r.value, r.source, r.resolverCalls))
      = .ok (.bool true, ValueSource.default, 0) :=
  claim8_delete_resets
    ⟨"B", .scalar .boolK, Option.none, Option.none, .bool true, false⟩
    ⟨false, []⟩ (fun _ => Option.none) (.bool false) ⟨[], [], []⟩
    (Or.inl rfl) rfl rfl (by simp)

/-! ## Claim C10: a failed write still clears the one-shot override -/

/-- C10: `fset` with an invalid non-None value clears the staged one-shot
override *before* `validate` raises, performs no backend access, and
reports the `ValidationError` to the caller; a subsequent read therefore
behaves exactly as if no one-shot value had ever been staged, resolving
from env/stored/default. -/
theorem claim10_failed_write (o : OptCfg) (cfg : Config)
    (env : String → Option JTxt) (v : PyValue) (s : MemState) (e : PyErr)
    (hnn : v.isNone = false) (hval : validate o v = .error e) :
    fset o cfg v s = ⟨⟨false, .none⟩, s, some e⟩
    ∧ read_value o (fset o cfg v s).optState cfg env (fset o cfg v s).state
      = read_value o ⟨false, .none⟩ cfg env s := by
  have h1 : fset o cfg v s = ⟨⟨false, .none⟩, s, some e⟩ := by
    rw [fset]
    simp only [hnn, Bool.false_eq_true, if_false, hval]
  exact ⟨h1, by rw [h1]⟩

/-- C10 witness: an `IntOption` with a staged one-shot `7`, written with
the invalid value `"x"`: the write fails with `ValidationError`, the
backend is untouched, and the read after the failed write returns the
stored value — the one-shot override is gone. -/
theorem claim10_failed_write_witness :
    fset ⟨"Age", .scalar .intK, Option.none, Option.none, .int 42, false⟩ ⟨false, []⟩
        (.str "x") ⟨[("Age", .str "5")], [], []⟩
      = ⟨⟨false, .none⟩, ⟨[("Age", .str "5")], [], []⟩, some PyErr.validationError⟩
    ∧ read_value ⟨"Age", .scalar .intK, Option.none, Option.none, .int 42, false⟩
        (fset ⟨"Age", .scalar .intK, Option.none, Option.none, .int 42, false⟩
          ⟨false, []⟩ (.str "x") ⟨[("Age", .str "5")], [], []⟩).optState
        ⟨false, []⟩ (fun _ => Option.none)
        (fset ⟨"Age", .scalar .intK, Option.none, Option.none, .int 42, false⟩
          ⟨false, []⟩ (.str "x") ⟨[("Age", .str "5")], [], []⟩).state
      = read_value ⟨"Age", .scalar .intK, Option.none, Option.none, .int 42, false⟩
          ⟨false, .none⟩ ⟨false, []⟩ (fun _ => Option.none)
          ⟨[("Age", .str "5")], [], []⟩ :=
  claim10_failed_write
    ⟨"Age", .scalar .intK, Option.none, Option.none, .int 42, false⟩ ⟨false, []⟩
    (fun _ => Option.none) (.str "x") ⟨[("Age", .str "5")], [], []⟩
    PyErr.validationError rfl rfl

end NativeConfig
